import Mathlib

/-
Verification development for the go-raptor library (package go_raptor).

The embedding covers:
  * the reversible slice iterator (slice_it.go),
  * the data model (raptor_models.go),
  * PrepareRaptorInput, SimpleRaptorDepartAt, SimpleRaptorArriveBy and the
    SimpleRaptor dispatcher.

Modelling conventions:
  * The generic identifier type ID is instantiated at Nat (the uint64 member of
    the UniqueGtfsIdLike constraint); the fmt.Sprintf verb %v used by the
    fingerprint renders a Nat as its decimal digits, which is toString.
  * Go's int and int64 are modelled as Int (no arithmetic in the library comes
    close to overflow for the inputs considered here).
  * Go slices built by repeated append carry spare capacity.  A slice
    expression data[lo:hi] is legal whenever hi does not exceed the CAPACITY,
    and the elements between the length and the capacity are the zero value of
    the element type (the gc runtime clears the tail of the backing array when
    growing).  The embedding therefore models an index slice as a list plus a
    capacity, with capacity growth as performed by the gc runtime for the
    small slices arising here (capacity doubles when full, exact for 8-byte
    elements while the capacity stays below 256).  An out-of-bounds slice
    expression is a run-time panic, modelled as Except.error.
  * Go map iteration order is unspecified; the embedding fixes insertion
    order, a determinisation the specification itself recommends.
  * A read of a missing map key yields the zero value of the value type,
    exactly as in Go.
  * The unused input fields TimePartitionInterval and TimePartitions are
    omitted; no embedded function reads them.
-/

namespace GoRaptor

/-- Association list used to model a Go map while fixing iteration order to
insertion order.  Updating an existing key keeps its position; a new key is
appended at the end. -/
def alPut {β : Type} (m : List (Nat × β)) (k : Nat) (v : β) : List (Nat × β) :=
  match m with
  | [] => [(k, v)]
  | (k0, v0) :: rest =>
    if k0 = k then (k, v) :: rest else (k0, v0) :: alPut rest k v

/-- Lookup in the association-list model of a Go map. -/
def alGet {β : Type} (m : List (Nat × β)) (k : Nat) : Option β :=
  match m with
  | [] => none
  | (k0, v0) :: rest => if k0 = k then some v0 else alGet rest k

/-- Go map read in value context: a missing key yields the zero value. -/
def alGetD {β : Type} (m : List (Nat × β)) (k : Nat) (z : β) : β :=
  (alGet m k).getD z

/-- Go slice index expression `l[i]`; out of range is a run-time panic. -/
def listGet {α : Type} (l : List α) (i : Nat) : Except String α :=
  match l.get? i with
  | some v => Except.ok v
  | none => Except.error "runtime error: index out of range"

/-- A Go slice of ints (the index lists stored in the prepared lookup maps):
the visible elements together with the capacity of the backing array. -/
structure GoSlice where
  data : List Nat
  cap : Nat
deriving DecidableEq

/-- The nil / empty slice literal []int with no spare capacity. -/
def emptyGoSlice : GoSlice := ⟨[], 0⟩

/-- Capacity chosen by the gc runtime when an append must grow a slice of
8-byte elements to hold `needed` elements: the capacity doubles (starting at
1), exact while the capacity stays small. -/
def growCap (needed oldCap : Nat) : Nat :=
  if 2 * oldCap < needed then needed else 2 * oldCap

/-- Go append of one element to an index slice, with gc capacity growth. -/
def goAppend (s : GoSlice) (x : Nat) : GoSlice :=
  if s.data.length + 1 ≤ s.cap then ⟨s.data ++ [x], s.cap⟩
  else ⟨s.data ++ [x], growCap (s.data.length + 1) s.cap⟩

/-- The backing array contents up to the capacity: the visible elements
followed by zero values (the gc runtime clears the tail when growing). -/
def GoSlice.padded (s : GoSlice) : List Nat :=
  s.data ++ List.replicate (s.cap - s.data.length) 0

/-- Go slice expression `data[lo:hi]`: legal whenever 0 ≤ lo ≤ hi ≤ cap,
otherwise a bounds panic. -/
def goSliceRange (s : GoSlice) (lo hi : Int) : Except String (List Nat) :=
  if 0 ≤ lo ∧ lo ≤ hi ∧ hi ≤ (s.cap : Int) then
    Except.ok ((s.padded.drop lo.toNat).take (hi - lo).toNat)
  else Except.error "runtime error: slice bounds out of range"

/-- SliceIterator over an index slice (slice_it.go): the underlying data and
the direction flag.  The mutable cursor is not part of the state because every
iterator in the search is consumed by a single complete traversal, modelled by
`iterList`. -/
structure SliceIterator where
  gs : GoSlice
  reverse : Bool

/-- NewSliceIterator (slice_it.go). -/
def NewSliceIterator (gs : GoSlice) (rev : Bool) : SliceIterator := ⟨gs, rev⟩

/-- Length of the iterator: the slice length captured at creation. -/
def SliceIterator.length (it : SliceIterator) : Nat := it.gs.data.length

/-- The sequence of elements a complete HasNext/Next traversal yields: the
data in order, reversed when the direction flag is set. -/
def SliceIterator.iterList (it : SliceIterator) : List Nat :=
  if it.reverse then it.gs.data.reverse else it.gs.data

/-- First (slice_it.go): the start element in the chosen direction; panics on
an empty slice. -/
def SliceIterator.first (it : SliceIterator) : Except String Nat :=
  match it.gs.data with
  | [] => Except.error "can not get First element from empty slice"
  | x :: xs => Except.ok (if it.reverse then (x :: xs).getLast (by simp) else x)

/-- The sub-iterator method SliceIterator.SliceIterator (slice_it.go lines
67-73): forward it slices data[from : from+num]; reverse it slices
data[length-from-num : length-from], keeping the direction flag. -/
def SliceIterator.subIterator (it : SliceIterator) (fromInc numItems : Int) :
    Except String SliceIterator :=
  if it.reverse then
    match goSliceRange it.gs ((it.length : Int) - fromInc - numItems) ((it.length : Int) - fromInc) with
    | Except.ok w => Except.ok ⟨⟨w, w.length⟩, it.reverse⟩
    | Except.error e => Except.error e
  else
    match goSliceRange it.gs fromInc (fromInc + numItems) with
    | Except.ok w => Except.ok ⟨⟨w, w.length⟩, it.reverse⟩
    | Except.error e => Except.error e

/-- GtfsStopStruct instantiated at ID = Nat. -/
structure GtfsStopStruct where
  UniqueID : Nat
deriving DecidableEq

/-- GtfsTransferStruct instantiated at ID = Nat. -/
structure GtfsTransferStruct where
  FromUniqueStopID : Nat
  ToUniqueStopID : Nat
  MinimumTransferTimeInSeconds : Int
deriving DecidableEq

/-- GtfsStopTimeStruct instantiated at ID = Nat. -/
structure GtfsStopTimeStruct where
  UniqueStopID : Nat
  UniqueTripID : Nat
  UniqueTripServiceID : Nat
  StopSequence : Int
  ArrivalTimeInSeconds : Int
  DepartureTimeInSeconds : Int
deriving DecidableEq

/-- ViaTrip (raptor_models.go). -/
structure ViaTrip where
  UniqueTripID : Nat
  UniqueTripServiceID : Nat
  FromStopSequenceInTrip : Int
  ToStopSequenceInTrip : Int
deriving DecidableEq

/-- RoundSegmentSpan (raptor_models.go); a none ViaTrip is a walking
transfer. -/
structure RoundSegmentSpan where
  FromUniqueStopID : Nat
  ToUniqueStopID : Nat
  ViaTrip : Option ViaTrip
  ArrivalTimeInSecondsToUniqueStopID : Int
  DepartureTimeInSecondsFromUniqueStopID : Int
deriving DecidableEq

/-- RoundSegment (raptor_models.go). -/
structure RoundSegment where
  UniqueStopID : Nat
  ArrivalTimeInSeconds : Int
  Spans : List RoundSegmentSpan
deriving DecidableEq

/-- The zero value of RoundSegment, returned by a Go map read at a missing
key. -/
def zeroRoundSegment : RoundSegment := ⟨0, 0, []⟩

/-- Journey (raptor_models.go). -/
structure Journey where
  ToUniqueStopID : Nat
  FromUniqueStopID : Nat
  DepartureTimeInSeconds : Int
  ArrivalTimeInSeconds : Int
  Legs : List RoundSegmentSpan
deriving DecidableEq

/-- RaptorMarkedStop; Source is the string-typed RaptorMarkedStopSource. -/
structure RaptorMarkedStop where
  ID : Nat
  Source : String
deriving DecidableEq

/-- The RaptorMarkedStopSourceArrival constant. -/
def sourceArrival : String := "arrival"

/-- The RaptorMarkedStopSourceTransfer constant. -/
def sourceTransfer : String := "transfer"

/-- The RaptorModeDepartAt constant. -/
def modeDepartAt : String := "depart_at"

/-- The RaptorModeArriveBy constant. -/
def modeArriveBy : String := "arrive_by"

/-- One fingerprint part for a span: "<from_id>|<trip_id or empty>|<to_id>",
with %v of a Nat rendered as decimal digits. -/
def spanFingerPrintPart (leg : RoundSegmentSpan) : String :=
  toString leg.FromUniqueStopID ++ "|" ++
    (match leg.ViaTrip with
     | some v => toString v.UniqueTripID
     | none => "") ++ "|" ++ toString leg.ToUniqueStopID

/-- The fingerprint of a span chain: the parts joined with "->". -/
def spansFingerPrint (spans : List RoundSegmentSpan) : String :=
  String.intercalate "->" (spans.map spanFingerPrintPart)

/-- RoundSegment.GetFingerPrint (raptor_models.go lines 196-206). -/
def RoundSegment.GetFingerPrint (seg : RoundSegment) : String :=
  spansFingerPrint seg.Spans

/-- SimpleRaptorInput instantiated at ID = Nat with the concrete Gtfs structs.
The three optional precomputed index maps hold indices into the Transfers /
StopTimes lists. -/
structure SimpleRaptorInput where
  FromStops : List GtfsStopStruct
  ToStops : List GtfsStopStruct
  Transfers : List GtfsTransferStruct
  StopTimes : List GtfsStopTimeStruct
  Mode : String
  TimeInSeconds : Int
  MaximumTransfers : Nat
  AllowTransferHopping : Bool
  TransfersByUniqueStopId : Option (List (Nat × GoSlice))
  StopTimesByUniqueStopId : Option (List (Nat × GoSlice))
  StopTimesByUniqueTripServiceId : Option (List (Nat × GoSlice))
deriving DecidableEq

/-- PreparedRaptorInput (raptor_models.go lines 180-189, minus the unused
TimePartitions field). -/
structure PreparedRaptorInput where
  Input : SimpleRaptorInput
  FromStopsByUniqueStopId : List (Nat × Nat)
  ToStopsByUniqueStopId : List (Nat × Nat)
  TransfersByUniqueStopId : List (Nat × GoSlice)
  StopTimesByUniqueStopId : List (Nat × GoSlice)
  StopTimesByUniqueTripServiceId : List (Nat × GoSlice)

/-- The id-keyed membership map built from a stop list. -/
def buildIdMap (stops : List GtfsStopStruct) : List (Nat × Nat) :=
  stops.foldl (fun m s => alPut m s.UniqueID s.UniqueID) []

/-- Append an index under a key, creating the entry when absent (the has_key
initialisation followed by append in PrepareRaptorInput). -/
def appendIdx (m : List (Nat × GoSlice)) (k : Nat) (i : Nat) : List (Nat × GoSlice) :=
  alPut m k (goAppend (alGetD m k emptyGoSlice) i)

/-- The transfers-by-from-stop index built from the raw transfer list. -/
def buildTransfersBy (ts : List GtfsTransferStruct) : List (Nat × GoSlice) :=
  ts.enum.foldl (fun m ti => appendIdx m ti.2.FromUniqueStopID ti.1) []

/-- The stop-times-by-stop index built from the raw stop-time list. -/
def buildStopTimesByStop (sts : List GtfsStopTimeStruct) : List (Nat × GoSlice) :=
  sts.enum.foldl (fun m sti => appendIdx m sti.2.UniqueStopID sti.1) []

/-- The stop-times-by-trip-service index built from the raw stop-time list. -/
def buildStopTimesByTripService (sts : List GtfsStopTimeStruct) : List (Nat × GoSlice) :=
  sts.enum.foldl (fun m sti => appendIdx m sti.2.UniqueTripServiceID sti.1) []

/-- PrepareRaptorInput (part_000 lines 3-70): builds the from/to membership
maps, and adopts each supplied index verbatim or builds it from the raw lists
in input order. -/
def PrepareRaptorInput (input : SimpleRaptorInput) : PreparedRaptorInput :=
  { Input := input
    FromStopsByUniqueStopId := buildIdMap input.FromStops
    ToStopsByUniqueStopId := buildIdMap input.ToStops
    TransfersByUniqueStopId :=
      match input.TransfersByUniqueStopId with
      | some m => m
      | none => buildTransfersBy input.Transfers
    StopTimesByUniqueStopId :=
      match input.StopTimesByUniqueStopId with
      | some m => m
      | none => buildStopTimesByStop input.StopTimes
    StopTimesByUniqueTripServiceId :=
      match input.StopTimesByUniqueTripServiceId with
      | some m => m
      | none => buildStopTimesByTripService input.StopTimes }

/-- Default span used only to read a guarded-nonempty list head or last. -/
def defaultSpan : RoundSegmentSpan := ⟨0, 0, none, 0, 0⟩

/-- Whether a nonempty span chain starts with an in-vehicle span. -/
def firstViaSome (spans : List RoundSegmentSpan) : Bool :=
  match spans.head? with
  | some sp => sp.ViaTrip.isSome
  | none => false

/-- Whether a nonempty span chain ends with an in-vehicle span. -/
def lastViaSome (spans : List RoundSegmentSpan) : Bool :=
  match spans.getLast? with
  | some sp => sp.ViaTrip.isSome
  | none => false

/-- The mutable state of one search: the label store, the trip-scan
bookkeeping, the accumulator of stops marked for the next round, the journeys
found so far and their fingerprints. -/
structure SearchState where
  labels : List (Nat × RoundSegment)
  tripsScanned : List (Nat × Int)
  markedNext : List (Nat × RaptorMarkedStop)
  journeys : List Journey
  fps : List String
deriving DecidableEq

/-- The read-only context of the forward search: the raw lists, the prepared
lookup maps consumed by the round body, and the transfer-hopping flag. -/
structure DepartCtx where
  stopTimes : List GtfsStopTimeStruct
  transfers : List GtfsTransferStruct
  toIds : List (Nat × Nat)
  transfersBy : List (Nat × GoSlice)
  stopTimesByStop : List (Nat × GoSlice)
  stopTimesByTrip : List (Nat × GoSlice)
  hop : Bool

/-- The marking half of one forward transfer relaxation (part_000 lines
193-199): mark the target for the next round unless already marked. -/
def daWalkMark (t : GtfsTransferStruct) (s : SearchState) : SearchState :=
  if (alGet s.markedNext t.ToUniqueStopID).isNone then
    { s with markedNext := alPut s.markedNext t.ToUniqueStopID ⟨t.ToUniqueStopID, sourceTransfer⟩ }
  else s

/-- The walking span appended for a forward transfer out of st2. -/
def daWalkSeg (st2 : GtfsStopTimeStruct) (vehSeg : RoundSegment) (t : GtfsTransferStruct) :
    RoundSegment :=
  ⟨t.ToUniqueStopID, st2.ArrivalTimeInSeconds + t.MinimumTransferTimeInSeconds,
    vehSeg.Spans ++
      [⟨st2.UniqueStopID, t.ToUniqueStopID, none,
        st2.ArrivalTimeInSeconds + t.MinimumTransferTimeInSeconds, st2.ArrivalTimeInSeconds⟩]⟩

/-- The labelling half of one forward transfer relaxation (part_000 lines
200-220): store the walking label when the candidate arrival improves. -/
def daWalkLabel (st2 : GtfsStopTimeStruct) (vehSeg : RoundSegment) (t : GtfsTransferStruct)
    (s1 : SearchState) : SearchState :=
  match alGet s1.labels t.ToUniqueStopID with
  | none => { s1 with labels := alPut s1.labels t.ToUniqueStopID (daWalkSeg st2 vehSeg t) }
  | some exT =>
    if exT.ArrivalTimeInSeconds > st2.ArrivalTimeInSeconds + t.MinimumTransferTimeInSeconds then
      { s1 with labels := alPut s1.labels t.ToUniqueStopID (daWalkSeg st2 vehSeg t) }
    else s1

/-- One transfer of the forward relaxation (part_000 lines 192-220). -/
def daWalkStep (st2 : GtfsStopTimeStruct) (vehSeg : RoundSegment)
    (t : GtfsTransferStruct) (s : SearchState) : SearchState :=
  daWalkLabel st2 vehSeg t (daWalkMark t s)

/-- Transfer relaxation out of the just-improved arrival stop st2 (part_000
lines 190-221).  vehSeg is the just-stored in-vehicle label of st2 (the
existing_segment local, fixed for the whole loop). -/
def daWalkLoop (ctx : DepartCtx) (st2 : GtfsStopTimeStruct) (vehSeg : RoundSegment) :
    List Nat → SearchState → Except String SearchState
  | [], s => Except.ok s
  | i :: rest, s =>
    match listGet ctx.transfers i with
    | Except.error e => Except.error e
    | Except.ok t => daWalkLoop ctx st2 vehSeg rest (daWalkStep st2 vehSeg t s)

/-- The in-vehicle span built when boarding at st improves the label of the
downstream stop time st2. -/
def daVehSeg (curSeg : RoundSegment) (st st2 : GtfsStopTimeStruct) : RoundSegment :=
  ⟨st2.UniqueStopID, st2.ArrivalTimeInSeconds,
    curSeg.Spans ++
      [⟨st.UniqueStopID, st2.UniqueStopID,
        some ⟨st2.UniqueTripID, st2.UniqueTripServiceID, st.StopSequence, st2.StopSequence⟩,
        st2.ArrivalTimeInSeconds, st.DepartureTimeInSeconds⟩]⟩

/-- The improvement step for one downstream stop time st2 (part_000 lines
161-222): when st2 improves on the stored arrival, the new in-vehicle label
is stored and transfers are relaxed with the hopping rule. -/
def daImprove (ctx : DepartCtx) (m : RaptorMarkedStop) (curSeg : RoundSegment)
    (st st2 : GtfsStopTimeStruct) (s : SearchState) : Except String SearchState :=
  let improve : Bool :=
    match alGet s.labels st2.UniqueStopID with
    | none => true
    | some ex => decide (ex.ArrivalTimeInSeconds > st2.ArrivalTimeInSeconds)
  if improve then
    let vehSeg := daVehSeg curSeg st st2
    let s1 := { s with labels := alPut s.labels st2.UniqueStopID vehSeg }
    if ctx.hop || m.Source = sourceArrival then
      daWalkLoop ctx st2 vehSeg (alGetD ctx.transfersBy st2.UniqueStopID emptyGoSlice).data s1
    else Except.ok s1
  else Except.ok s

/-- The unconditional arrival mark and the destination check for st2
(part_000 lines 224-254); the Bool is true when a journey was emitted, which
breaks the downstream loop. -/
def daMarkAndEmit (ctx : DepartCtx) (st2 : GtfsStopTimeStruct) (s2 : SearchState) :
    SearchState × Bool :=
  let s3 :=
    { s2 with markedNext := alPut s2.markedNext st2.UniqueStopID ⟨st2.UniqueStopID, sourceArrival⟩ }
  if (alGet ctx.toIds st2.UniqueStopID).isSome then
    let seg := alGetD s3.labels st2.UniqueStopID zeroRoundSegment
    let fp := seg.GetFingerPrint
    if ¬ s3.fps.contains fp ∧ seg.Spans ≠ [] ∧
        firstViaSome seg.Spans ∧ lastViaSome seg.Spans then
      let headSp := seg.Spans.head?.getD defaultSpan
      let lastSp := seg.Spans.getLast?.getD defaultSpan
      let j : Journey :=
        { ToUniqueStopID := lastSp.ToUniqueStopID
          FromUniqueStopID := headSp.FromUniqueStopID
          DepartureTimeInSeconds := headSp.DepartureTimeInSecondsFromUniqueStopID
          ArrivalTimeInSeconds := lastSp.ArrivalTimeInSecondsToUniqueStopID
          Legs := seg.Spans }
      ({ s3 with journeys := s3.journeys ++ [j], fps := s3.fps ++ [fp] }, true)
    else (s3, false)
  else (s3, false)

/-- Processing of one downstream stop time st2 for a boarding st from marked
stop m (part_000 lines 160-254): improvement test, label store, transfer
relaxation, unconditional arrival mark, destination check.  The Bool is true
when the destination check emitted a journey and broke the downstream loop. -/
def daFollower (ctx : DepartCtx) (m : RaptorMarkedStop) (curSeg : RoundSegment)
    (st st2 : GtfsStopTimeStruct) (s : SearchState) : Except String (SearchState × Bool) :=
  match daImprove ctx m curSeg st st2 s with
  | Except.error e => Except.error e
  | Except.ok s2 => Except.ok (daMarkAndEmit ctx st2 s2)

/-- The downstream following_stop_times_loop (part_000 lines 158-255) over
the sub-iterator contents, stopping early when a journey was emitted. -/
def daFollowers (ctx : DepartCtx) (m : RaptorMarkedStop) (curSeg : RoundSegment)
    (st : GtfsStopTimeStruct) : List Nat → SearchState → Except String SearchState
  | [], s => Except.ok s
  | i :: rest, s =>
    match listGet ctx.stopTimes i with
    | Except.error e => Except.error e
    | Except.ok st2 =>
      match daFollower ctx m curSeg st st2 s with
      | Except.error e => Except.error e
      | Except.ok (s1, brk) =>
        if brk then Except.ok s1 else daFollowers ctx m curSeg st rest s1

/-- One candidate boarding stop time at a marked stop (part_000 lines
125-156): the board/already-scanned filter, the trip-scan record, and the
construction of the downstream sub-iterator. -/
def daBoarding (ctx : DepartCtx) (m : RaptorMarkedStop) (curSeg : RoundSegment)
    (s : SearchState) (stIdx : Nat) : Except String SearchState :=
  match listGet ctx.stopTimes stIdx with
  | Except.error e => Except.error e
  | Except.ok st =>
    let prevOpt := alGet s.tripsScanned st.UniqueTripID
    let prev : Int := prevOpt.getD 0
    let hasPrev := prevOpt.isSome
    if st.DepartureTimeInSeconds < curSeg.ArrivalTimeInSeconds ∨
        (hasPrev ∧ st.StopSequence ≥ prev) then
      Except.ok s
    else
      let s1 := { s with tripsScanned := alPut s.tripsScanned st.UniqueTripID st.StopSequence }
      let tripIt := NewSliceIterator (alGetD ctx.stopTimesByTrip st.UniqueTripServiceID emptyGoSlice) false
      match tripIt.first with
      | Except.error e => Except.error e
      | Except.ok firstIdx =>
        match listGet ctx.stopTimes firstIdx with
        | Except.error e => Except.error e
        | Except.ok firstSt =>
          let startOff := st.StopSequence - firstSt.StopSequence + 1
          let endOff := prev - firstSt.StopSequence
          match (if ¬ hasPrev then tripIt.subIterator startOff (tripIt.length : Int)
                 else tripIt.subIterator startOff endOff) with
          | Except.error e => Except.error e
          | Except.ok subIt => daFollowers ctx m curSeg st subIt.iterList s1

/-- The loop over the stop times of one marked stop. -/
def daStopTimesLoop (ctx : DepartCtx) (m : RaptorMarkedStop) (curSeg : RoundSegment) :
    List Nat → SearchState → Except String SearchState
  | [], s => Except.ok s
  | i :: rest, s =>
    match daBoarding ctx m curSeg s i with
    | Except.error e => Except.error e
    | Except.ok s1 => daStopTimesLoop ctx m curSeg rest s1

/-- Processing of one marked stop (part_000 lines 118-256): the current label
is read once, then every stop time at the stop is considered as a boarding. -/
def daMarkedStop (ctx : DepartCtx) (s : SearchState) (m : RaptorMarkedStop) :
    Except String SearchState :=
  let curSeg := alGetD s.labels m.ID zeroRoundSegment
  let idxs := alGetD ctx.stopTimesByStop m.ID emptyGoSlice
  daStopTimesLoop ctx m curSeg (NewSliceIterator idxs false).iterList s

/-- The loop over the stops marked for the current round. -/
def daMarkedLoop (ctx : DepartCtx) : List RaptorMarkedStop → SearchState → Except String SearchState
  | [], s => Except.ok s
  | m :: rest, s =>
    match daMarkedStop ctx s m with
    | Except.error e => Except.error e
    | Except.ok s1 => daMarkedLoop ctx rest s1

/-- The round loop (part_000 lines 114-260): MaximumTransfers rounds, each
draining the current marked set into a fresh next-round accumulator. -/
def daRounds (ctx : DepartCtx) : Nat → List (Nat × RaptorMarkedStop) → SearchState →
    Except String SearchState
  | 0, _, s => Except.ok s
  | n + 1, marked, s =>
    match daMarkedLoop ctx (marked.map Prod.snd) { s with markedNext := [] } with
    | Except.error e => Except.error e
    | Except.ok s1 => daRounds ctx n s1.markedNext s1

/-- The initial label store: every from-stop labelled with the reference time
and an empty span chain. -/
def initLabels (stops : List GtfsStopStruct) (t : Int) : List (Nat × RoundSegment) :=
  stops.foldl (fun m s => alPut m s.UniqueID ⟨s.UniqueID, t, []⟩) []

/-- The initial marked set: every listed stop marked with source arrival. -/
def initMarks (stops : List GtfsStopStruct) : List (Nat × RaptorMarkedStop) :=
  stops.foldl (fun m s => alPut m s.UniqueID ⟨s.UniqueID, sourceArrival⟩) []

/-- The body of SimpleRaptorDepartAt after input preparation, as a function of
exactly the projections of the prepared input that the Go body reads. -/
def departMain (fromStops : List GtfsStopStruct) (transfers : List GtfsTransferStruct)
    (stopTimes : List GtfsStopTimeStruct) (timeRef : Int) (maxTransfers : Nat) (hop : Bool)
    (toIds : List (Nat × Nat)) (transfersBy stopTimesByStop stopTimesByTrip : List (Nat × GoSlice)) :
    Except String (List Journey) :=
  let ctx : DepartCtx := ⟨stopTimes, transfers, toIds, transfersBy, stopTimesByStop, stopTimesByTrip, hop⟩
  let s0 : SearchState := ⟨initLabels fromStops timeRef, [], [], [], []⟩
  match daRounds ctx maxTransfers (initMarks fromStops) s0 with
  | Except.error e => Except.error e
  | Except.ok s => Except.ok s.journeys

/-- SimpleRaptorDepartAt (part_000 lines 80-263). -/
def SimpleRaptorDepartAt (input : SimpleRaptorInput) : Except String (List Journey) :=
  departMain (PrepareRaptorInput input).Input.FromStops
    (PrepareRaptorInput input).Input.Transfers
    (PrepareRaptorInput input).Input.StopTimes
    (PrepareRaptorInput input).Input.TimeInSeconds
    (PrepareRaptorInput input).Input.MaximumTransfers
    (PrepareRaptorInput input).Input.AllowTransferHopping
    (PrepareRaptorInput input).ToStopsByUniqueStopId
    (PrepareRaptorInput input).TransfersByUniqueStopId
    (PrepareRaptorInput input).StopTimesByUniqueStopId
    (PrepareRaptorInput input).StopTimesByUniqueTripServiceId

/-- The read-only context of the reverse search. -/
structure ArriveCtx where
  stopTimes : List GtfsStopTimeStruct
  transfers : List GtfsTransferStruct
  fromIds : List (Nat × Nat)
  transfersBy : List (Nat × GoSlice)
  stopTimesByStop : List (Nat × GoSlice)
  stopTimesByTrip : List (Nat × GoSlice)
  hop : Bool

/-- The walking span prepended for a reverse transfer into stP. -/
def abWalkSeg (stP : GtfsStopTimeStruct) (vehSeg : RoundSegment) (t : GtfsTransferStruct) :
    RoundSegment :=
  ⟨t.ToUniqueStopID, stP.ArrivalTimeInSeconds - t.MinimumTransferTimeInSeconds,
    ⟨t.ToUniqueStopID, stP.UniqueStopID, none, stP.ArrivalTimeInSeconds,
      stP.ArrivalTimeInSeconds - t.MinimumTransferTimeInSeconds⟩ :: vehSeg.Spans⟩

/-- The labelling half of one reverse transfer relaxation (part_000 lines
387-406): store the walking label when the candidate departure improves. -/
def abWalkLabel (stP : GtfsStopTimeStruct) (vehSeg : RoundSegment) (t : GtfsTransferStruct)
    (s1 : SearchState) : SearchState :=
  match alGet s1.labels t.ToUniqueStopID with
  | none => { s1 with labels := alPut s1.labels t.ToUniqueStopID (abWalkSeg stP vehSeg t) }
  | some exT =>
    if stP.ArrivalTimeInSeconds - t.MinimumTransferTimeInSeconds > exT.ArrivalTimeInSeconds then
      { s1 with labels := alPut s1.labels t.ToUniqueStopID (abWalkSeg stP vehSeg t) }
    else s1

/-- One transfer of the reverse relaxation (part_000 lines 379-406): the
walking span is prepended and the stored time is the departure from the
transfer stop. -/
def abWalkStep (stP : GtfsStopTimeStruct) (vehSeg : RoundSegment)
    (t : GtfsTransferStruct) (s : SearchState) : SearchState :=
  abWalkLabel stP vehSeg t (daWalkMark t s)

/-- Reverse-search transfer relaxation out of the just-improved preceding
stop (part_000 lines 377-407). -/
def abWalkLoop (ctx : ArriveCtx) (stP : GtfsStopTimeStruct) (vehSeg : RoundSegment) :
    List Nat → SearchState → Except String SearchState
  | [], s => Except.ok s
  | i :: rest, s =>
    match listGet ctx.transfers i with
    | Except.error e => Except.error e
    | Except.ok t => abWalkLoop ctx stP vehSeg rest (abWalkStep stP vehSeg t s)

/-- The improvement step for one preceding stop time stP in the reverse
search (part_000 lines 347-408): when stP allows a later time, the span is
prepended and transfers are relaxed with the hopping rule. -/
def abImprove (ctx : ArriveCtx) (m : RaptorMarkedStop) (curSeg : RoundSegment)
    (st stP : GtfsStopTimeStruct) (s : SearchState) : Except String SearchState :=
  let improve : Bool :=
    match alGet s.labels stP.UniqueStopID with
    | none => true
    | some ex => decide (stP.ArrivalTimeInSeconds > ex.ArrivalTimeInSeconds)
  if improve then
    let vehSeg : RoundSegment :=
      ⟨stP.UniqueStopID, stP.ArrivalTimeInSeconds,
        ⟨stP.UniqueStopID, st.UniqueStopID,
          some ⟨stP.UniqueTripID, stP.UniqueTripServiceID, stP.StopSequence, st.StopSequence⟩,
          st.ArrivalTimeInSeconds, stP.DepartureTimeInSeconds⟩ :: curSeg.Spans⟩
    let s1 := { s with labels := alPut s.labels stP.UniqueStopID vehSeg }
    if ctx.hop || m.Source = sourceArrival then
      abWalkLoop ctx stP vehSeg (alGetD ctx.transfersBy stP.UniqueStopID emptyGoSlice).data s1
    else Except.ok s1
  else Except.ok s

/-- The unconditional mark and the origin check for stP in the reverse
search (part_000 lines 410-440). -/
def abMarkAndEmit (ctx : ArriveCtx) (stP : GtfsStopTimeStruct) (s2 : SearchState) :
    SearchState × Bool :=
  let s3 :=
    { s2 with markedNext := alPut s2.markedNext stP.UniqueStopID ⟨stP.UniqueStopID, sourceArrival⟩ }
  if (alGet ctx.fromIds stP.UniqueStopID).isSome then
    let seg := alGetD s3.labels stP.UniqueStopID zeroRoundSegment
    let fp := seg.GetFingerPrint
    if ¬ s3.fps.contains fp ∧ seg.Spans ≠ [] ∧
        firstViaSome seg.Spans ∧ lastViaSome seg.Spans then
      let headSp := seg.Spans.head?.getD defaultSpan
      let lastSp := seg.Spans.getLast?.getD defaultSpan
      let j : Journey :=
        { ToUniqueStopID := lastSp.ToUniqueStopID
          FromUniqueStopID := headSp.FromUniqueStopID
          DepartureTimeInSeconds := headSp.DepartureTimeInSecondsFromUniqueStopID
          ArrivalTimeInSeconds := lastSp.ArrivalTimeInSecondsToUniqueStopID
          Legs := seg.Spans }
      ({ s3 with journeys := s3.journeys ++ [j], fps := s3.fps ++ [fp] }, true)
    else (s3, false)
  else (s3, false)

/-- Processing of one preceding stop time stP for an alighting st at marked
stop m (part_000 lines 346-440): improvement test, prepended span, transfer
relaxation, unconditional mark, origin check. -/
def abFollower (ctx : ArriveCtx) (m : RaptorMarkedStop) (curSeg : RoundSegment)
    (st stP : GtfsStopTimeStruct) (s : SearchState) : Except String (SearchState × Bool) :=
  match abImprove ctx m curSeg st stP s with
  | Except.error e => Except.error e
  | Except.ok s2 => Except.ok (abMarkAndEmit ctx stP s2)

/-- The upstream preceeding_stop_times_loop (part_000 lines 344-441). -/
def abFollowers (ctx : ArriveCtx) (m : RaptorMarkedStop) (curSeg : RoundSegment)
    (st : GtfsStopTimeStruct) : List Nat → SearchState → Except String SearchState
  | [], s => Except.ok s
  | i :: rest, s =>
    match listGet ctx.stopTimes i with
    | Except.error e => Except.error e
    | Except.ok stP =>
      match abFollower ctx m curSeg st stP s with
      | Except.error e => Except.error e
      | Except.ok (s1, brk) =>
        if brk then Except.ok s1 else abFollowers ctx m curSeg st rest s1

/-- One candidate alighting stop time at a marked stop in the reverse search
(part_000 lines 314-341): the too-late/already-scanned filter, the trip-scan
record, and the construction of the upstream sub-iterator over the reversed
trip sequence. -/
def abBoarding (ctx : ArriveCtx) (m : RaptorMarkedStop) (curSeg : RoundSegment)
    (s : SearchState) (stIdx : Nat) : Except String SearchState :=
  match listGet ctx.stopTimes stIdx with
  | Except.error e => Except.error e
  | Except.ok st =>
    let prevOpt := alGet s.tripsScanned st.UniqueTripID
    let prev : Int := prevOpt.getD 0
    let hasPrev := prevOpt.isSome
    if st.ArrivalTimeInSeconds > curSeg.ArrivalTimeInSeconds ∨
        (hasPrev ∧ st.StopSequence ≤ prev) then
      Except.ok s
    else
      let s1 := { s with tripsScanned := alPut s.tripsScanned st.UniqueTripID st.StopSequence }
      let tripIt := NewSliceIterator (alGetD ctx.stopTimesByTrip st.UniqueTripServiceID emptyGoSlice) true
      match tripIt.first with
      | Except.error e => Except.error e
      | Except.ok lastIdx =>
        match listGet ctx.stopTimes lastIdx with
        | Except.error e => Except.error e
        | Except.ok lastSt =>
          let startOff := lastSt.StopSequence - st.StopSequence + 1
          let endOff := lastSt.StopSequence - prev
          match (if ¬ hasPrev then tripIt.subIterator startOff (tripIt.length : Int)
                 else tripIt.subIterator startOff endOff) with
          | Except.error e => Except.error e
          | Except.ok subIt => abFollowers ctx m curSeg st subIt.iterList s1

/-- The loop over the stop times of one marked stop, iterated in reverse. -/
def abStopTimesLoop (ctx : ArriveCtx) (m : RaptorMarkedStop) (curSeg : RoundSegment) :
    List Nat → SearchState → Except String SearchState
  | [], s => Except.ok s
  | i :: rest, s =>
    match abBoarding ctx m curSeg s i with
    | Except.error e => Except.error e
    | Except.ok s1 => abStopTimesLoop ctx m curSeg rest s1

/-- Processing of one marked stop in the reverse search (part_000 lines
304-442). -/
def abMarkedStop (ctx : ArriveCtx) (s : SearchState) (m : RaptorMarkedStop) :
    Except String SearchState :=
  let curSeg := alGetD s.labels m.ID zeroRoundSegment
  let idxs := alGetD ctx.stopTimesByStop m.ID emptyGoSlice
  abStopTimesLoop ctx m curSeg (NewSliceIterator idxs true).iterList s

/-- The loop over the stops marked for the current round. -/
def abMarkedLoop (ctx : ArriveCtx) : List RaptorMarkedStop → SearchState → Except String SearchState
  | [], s => Except.ok s
  | m :: rest, s =>
    match abMarkedStop ctx s m with
    | Except.error e => Except.error e
    | Except.ok s1 => abMarkedLoop ctx rest s1

/-- The reverse round loop (part_000 lines 300-446). -/
def abRounds (ctx : ArriveCtx) : Nat → List (Nat × RaptorMarkedStop) → SearchState →
    Except String SearchState
  | 0, _, s => Except.ok s
  | n + 1, marked, s =>
    match abMarkedLoop ctx (marked.map Prod.snd) { s with markedNext := [] } with
    | Except.error e => Except.error e
    | Except.ok s1 => abRounds ctx n s1.markedNext s1

/-- The body of SimpleRaptorArriveBy after input preparation, as a function of
exactly the projections of the prepared input that the Go body reads. -/
def arriveMain (toStops : List GtfsStopStruct) (transfers : List GtfsTransferStruct)
    (stopTimes : List GtfsStopTimeStruct) (timeRef : Int) (maxTransfers : Nat) (hop : Bool)
    (fromIds : List (Nat × Nat)) (transfersBy stopTimesByStop stopTimesByTrip : List (Nat × GoSlice)) :
    Except String (List Journey) :=
  let ctx : ArriveCtx := ⟨stopTimes, transfers, fromIds, transfersBy, stopTimesByStop, stopTimesByTrip, hop⟩
  let s0 : SearchState := ⟨initLabels toStops timeRef, [], [], [], []⟩
  match abRounds ctx maxTransfers (initMarks toStops) s0 with
  | Except.error e => Except.error e
  | Except.ok s => Except.ok s.journeys

/-- SimpleRaptorArriveBy (part_000 lines 265-449). -/
def SimpleRaptorArriveBy (input : SimpleRaptorInput) : Except String (List Journey) :=
  arriveMain (PrepareRaptorInput input).Input.ToStops
    (PrepareRaptorInput input).Input.Transfers
    (PrepareRaptorInput input).Input.StopTimes
    (PrepareRaptorInput input).Input.TimeInSeconds
    (PrepareRaptorInput input).Input.MaximumTransfers
    (PrepareRaptorInput input).Input.AllowTransferHopping
    (PrepareRaptorInput input).FromStopsByUniqueStopId
    (PrepareRaptorInput input).TransfersByUniqueStopId
    (PrepareRaptorInput input).StopTimesByUniqueStopId
    (PrepareRaptorInput input).StopTimesByUniqueTripServiceId

/-- SimpleRaptor (part_000 lines 451-458): depart_at dispatches to the
forward search, any other mode value falls through to the reverse search. -/
def SimpleRaptor (input : SimpleRaptorInput) : Except String (List Journey) :=
  if input.Mode = modeDepartAt then SimpleRaptorDepartAt input
  else SimpleRaptorArriveBy input

/-- The reference time T = 1_755_964_800 of the concrete scenarios. -/
def T : Int := 1755964800

/-- Scenario S1: stops High (1) and Franklin (2); a single trip (10) whose
two stop times are (High, seq 5, departure T+10) and (Franklin, seq 6,
arrival T+120), supplied in ascending stop-sequence order; depart-at at T
with maximum_transfers 4. -/
def s1Input : SimpleRaptorInput :=
  { FromStops := [⟨1⟩], ToStops := [⟨2⟩], Transfers := []
    StopTimes :=
      [ ⟨1, 10, 10, 5, T - 10, T + 10⟩
      , ⟨2, 10, 10, 6, T + 120, T + 130⟩ ]
    Mode := modeDepartAt, TimeInSeconds := T, MaximumTransfers := 4
    AllowTransferHopping := false
    TransfersByUniqueStopId := none, StopTimesByUniqueStopId := none
    StopTimesByUniqueTripServiceId := none }

/-- Scenario S2: the timetable of S1, arrive-by at T+120. -/
def s2Input : SimpleRaptorInput :=
  { s1Input with Mode := modeArriveBy, TimeInSeconds := T + 120 }

/-- A single three-stop trip 1 → 2 → 3 boarded at its first stop with the
destination at the second stop; the one input on which the forward search
returns normally with exactly one journey. -/
def cleanInput : SimpleRaptorInput :=
  { FromStops := [⟨1⟩], ToStops := [⟨2⟩], Transfers := []
    StopTimes :=
      [ ⟨1, 10, 10, 5, T - 10, T + 10⟩
      , ⟨2, 10, 10, 6, T + 120, T + 130⟩
      , ⟨3, 10, 10, 7, T + 200, T + 210⟩ ]
    Mode := modeDepartAt, TimeInSeconds := T, MaximumTransfers := 4
    AllowTransferHopping := false
    TransfersByUniqueStopId := none, StopTimesByUniqueStopId := none
    StopTimesByUniqueTripServiceId := none }

/-- The journey the forward search returns on cleanInput. -/
def cleanJourney : Journey :=
  ⟨2, 1, T + 10, T + 120, [⟨1, 2, some ⟨10, 10, 5, 6⟩, T + 120, T + 10⟩]⟩

/-- Input with three chained trips (20: 1→2→3, 30: 2→3→5, 40: 3→4→6) and a
decoy first stop time; with MaximumTransfers = 2 the forward search returns a
journey with three in-vehicle legs, because the round body re-extends labels
that were already improved earlier in the same round. -/
def c4Input : SimpleRaptorInput :=
  { FromStops := [⟨1⟩], ToStops := [⟨4⟩], Transfers := []
    StopTimes :=
      [ ⟨7, 90, 90, 1, 1000000000, 0⟩
      , ⟨1, 20, 20, 1, 95, 100⟩
      , ⟨2, 20, 20, 2, 110, 115⟩
      , ⟨3, 20, 20, 3, 1000, 1005⟩
      , ⟨2, 30, 30, 1, 113, 115⟩
      , ⟨3, 30, 30, 2, 200, 205⟩
      , ⟨5, 30, 30, 3, 210, 215⟩
      , ⟨3, 40, 40, 1, 208, 210⟩
      , ⟨4, 40, 40, 2, 300, 305⟩
      , ⟨6, 40, 40, 3, 310, 315⟩ ]
    Mode := modeDepartAt, TimeInSeconds := 100, MaximumTransfers := 2
    AllowTransferHopping := false
    TransfersByUniqueStopId := none, StopTimesByUniqueStopId := none
    StopTimesByUniqueTripServiceId := none }

/-- The journey returned on c4Input: trips 20, 30, 40 chained, the last two
boarded in the same round. -/
def c4Journey : Journey :=
  ⟨4, 1, 100, 300,
    [ ⟨1, 2, some ⟨20, 20, 1, 2⟩, 110, 100⟩
    , ⟨2, 3, some ⟨30, 30, 1, 2⟩, 200, 115⟩
    , ⟨3, 4, some ⟨40, 40, 1, 2⟩, 300, 210⟩ ]⟩

/-- A fully precondition-respecting timetable (trip 20: 1→2→3 monotone, trip
90: a single earlier stop time at destination stop 4 listed first) on which
the downstream scan of trip 20 overruns its index slice into the zero-filled
spare capacity, reads stop-time index 0, and emits a journey whose single leg
departs at 100 and arrives at 50. -/
def c5Input : SimpleRaptorInput :=
  { FromStops := [⟨1⟩], ToStops := [⟨4⟩], Transfers := []
    StopTimes :=
      [ ⟨4, 90, 90, 1, 50, 60⟩
      , ⟨1, 20, 20, 1, 95, 100⟩
      , ⟨2, 20, 20, 2, 110, 115⟩
      , ⟨3, 20, 20, 3, 120, 125⟩ ]
    Mode := modeDepartAt, TimeInSeconds := 100, MaximumTransfers := 1
    AllowTransferHopping := false
    TransfersByUniqueStopId := none, StopTimesByUniqueStopId := none
    StopTimesByUniqueTripServiceId := none }

/-- The journey returned on c5Input: a single in-vehicle leg with departure
100 and arrival 50. -/
def c5Journey : Journey :=
  ⟨4, 1, 100, 50, [⟨1, 4, some ⟨90, 90, 1, 1⟩, 50, 100⟩]⟩

/-- An input whose Mode is neither depart_at nor arrive_by. -/
def c9Input : SimpleRaptorInput :=
  { FromStops := [], ToStops := [], Transfers := [], StopTimes := []
    Mode := "bogus", TimeInSeconds := 0, MaximumTransfers := 3
    AllowTransferHopping := false
    TransfersByUniqueStopId := none, StopTimesByUniqueStopId := none
    StopTimesByUniqueTripServiceId := none }

/-- An input whose caller-supplied StopTimesByUniqueStopId index attributes a
stop time of stop 2 to origin stop 1; the returned journey then starts at
stop 2, which is not in FromStops. -/
def c10Input : SimpleRaptorInput :=
  { FromStops := [⟨1⟩], ToStops := [⟨3⟩], Transfers := []
    StopTimes :=
      [ ⟨2, 70, 70, 1, 90, 100⟩
      , ⟨3, 70, 70, 2, 110, 120⟩
      , ⟨4, 70, 70, 3, 130, 140⟩ ]
    Mode := modeDepartAt, TimeInSeconds := 100, MaximumTransfers := 1
    AllowTransferHopping := false
    TransfersByUniqueStopId := none
    StopTimesByUniqueStopId := some [(1, ⟨[0], 1⟩)]
    StopTimesByUniqueTripServiceId := none }

/-- The journey returned on c10Input, starting at stop 2. -/
def c10Journey : Journey :=
  ⟨3, 2, 100, 110, [⟨2, 3, some ⟨70, 70, 1, 2⟩, 110, 100⟩]⟩

/-- The input precondition of the specification for one ordered pair of stop
times of the same trip service: ascending stop sequence with monotonically
non-decreasing times. -/
def ValidStopTimePair (a b : GtfsStopTimeStruct) : Prop :=
  a.UniqueTripServiceID = b.UniqueTripServiceID →
    (a.StopSequence < b.StopSequence ∧
     a.DepartureTimeInSeconds ≤ b.ArrivalTimeInSeconds ∧
     a.ArrivalTimeInSeconds ≤ b.ArrivalTimeInSeconds ∧
     a.DepartureTimeInSeconds ≤ b.DepartureTimeInSeconds)

instance (a b : GtfsStopTimeStruct) : Decidable (ValidStopTimePair a b) := by
  unfold ValidStopTimePair
  infer_instance

/-- The input precondition of the specification: within each unique trip
service id the stop times are listed in ascending stop-sequence order with
monotonically non-decreasing times, arrival ≤ departure at each stop time,
and non-negative minimum transfer times. -/
def ValidRaptorTimetable (inp : SimpleRaptorInput) : Prop :=
  List.Pairwise ValidStopTimePair inp.StopTimes ∧
  (∀ st ∈ inp.StopTimes, st.ArrivalTimeInSeconds ≤ st.DepartureTimeInSeconds) ∧
  (∀ t ∈ inp.Transfers, 0 ≤ t.MinimumTransferTimeInSeconds)

instance (inp : SimpleRaptorInput) : Decidable (ValidRaptorTimetable inp) := by
  unfold ValidRaptorTimetable
  infer_instance

/-- The number of in-vehicle legs of a journey. -/
def vehicleLegCount (j : Journey) : Nat :=
  (j.Legs.filter (fun l => l.ViaTrip.isSome)).length

/-- The input with the three optional index fields left nil. -/
def clearIndices (inp : SimpleRaptorInput) : SimpleRaptorInput :=
  { inp with
    TransfersByUniqueStopId := none
    StopTimesByUniqueStopId := none
    StopTimesByUniqueTripServiceId := none }

/-- The input with the three optional index fields set to the index maps
PrepareRaptorInput itself builds from the raw Transfers and StopTimes lists
of that same input. -/
def withBuiltIndices (inp : SimpleRaptorInput) : SimpleRaptorInput :=
  { inp with
    TransfersByUniqueStopId :=
      some (PrepareRaptorInput (clearIndices inp)).TransfersByUniqueStopId
    StopTimesByUniqueStopId :=
      some (PrepareRaptorInput (clearIndices inp)).StopTimesByUniqueStopId
    StopTimesByUniqueTripServiceId :=
      some (PrepareRaptorInput (clearIndices inp)).StopTimesByUniqueTripServiceId }

/-- The journey shape required by the emission guard: non-empty legs whose
first and last elements are in-vehicle. -/
def LegsOK (j : Journey) : Prop :=
  j.Legs ≠ [] ∧ firstViaSome j.Legs = true ∧ lastViaSome j.Legs = true

/-- The journeys/fingerprints invariant of the search state: every found
journey has the emission shape, the fingerprints of the found journeys are
pairwise distinct, and each is recorded in the seen-fingerprint set. -/
def JourneysOK (s : SearchState) : Prop :=
  (∀ j ∈ s.journeys, LegsOK j) ∧
  (s.journeys.map (fun j => spansFingerPrint j.Legs)).Nodup ∧
  (∀ j ∈ s.journeys, spansFingerPrint j.Legs ∈ s.fps)

/-- Honesty of a stop-times-by-stop index: every index stored under a key
names a stop time at that stop. -/
def ByStopHonest (stopTimes : List GtfsStopTimeStruct) (m : List (Nat × GoSlice)) : Prop :=
  ∀ k gs, alGet m k = some gs → ∀ i ∈ gs.data, ∀ st, stopTimes.get? i = some st →
    st.UniqueStopID = k

/-- The label-store invariant of the forward search: a label with no spans
sits at an origin stop, and a label with spans starts its chain at an origin
stop. -/
def LabelsOK (fromIds : List Nat) (labels : List (Nat × RoundSegment)) : Prop :=
  ∀ k seg, alGet labels k = some seg →
    (seg.Spans = [] → k ∈ fromIds) ∧
    (∀ sp, seg.Spans.head? = some sp → sp.FromUniqueStopID ∈ fromIds)

/-- Every stop recorded in a marking map has a label. -/
def MarksOK (labels : List (Nat × RoundSegment)) (marks : List (Nat × RaptorMarkedStop)) : Prop :=
  ∀ p ∈ marks, (alGet labels (p.2.ID)).isSome = true

/-- Every found journey starts at an origin stop. -/
def JourneysFromOK (fromIds : List Nat) (js : List Journey) : Prop :=
  ∀ j ∈ js, j.FromUniqueStopID ∈ fromIds

/-- Key preservation between two label stores: labels are never deleted. -/
def keepsKeys (l1 l2 : List (Nat × RoundSegment)) : Prop :=
  ∀ k, (alGet l1 k).isSome = true → (alGet l2 k).isSome = true

/-- The chain-start facts available for the label of the currently processed
marked stop. -/
def CurSegOK (fromIds : List Nat) (mid : Nat) (curSeg : RoundSegment) : Prop :=
  (curSeg.Spans = [] → mid ∈ fromIds) ∧
  (∀ sp, curSeg.Spans.head? = some sp → sp.FromUniqueStopID ∈ fromIds)

/-- The combined forward-search invariant used for the origin property. -/
def OriginInv (fromIds : List Nat) (s : SearchState) : Prop :=
  LabelsOK fromIds s.labels ∧ MarksOK s.labels s.markedNext ∧
  JourneysFromOK fromIds s.journeys

/-- An input with two single-leg journeys (trips 10 and 11 from stop 1 to
destinations 2 and 4), used to witness the fingerprint and boundary-leg
properties on a result with more than one journey. -/
def twoJourneyInput : SimpleRaptorInput :=
  { FromStops := [⟨1⟩], ToStops := [⟨2⟩, ⟨4⟩], Transfers := []
    StopTimes :=
      [ ⟨1, 10, 10, 1, 95, 100⟩
      , ⟨2, 10, 10, 2, 110, 115⟩
      , ⟨3, 10, 10, 3, 120, 125⟩
      , ⟨1, 11, 11, 1, 96, 101⟩
      , ⟨4, 11, 11, 2, 130, 135⟩
      , ⟨5, 11, 11, 3, 140, 145⟩ ]
    Mode := modeDepartAt, TimeInSeconds := 100, MaximumTransfers := 1
    AllowTransferHopping := false
    TransfersByUniqueStopId := none, StopTimesByUniqueStopId := none
    StopTimesByUniqueTripServiceId := none }

/-- The two journeys returned on twoJourneyInput. -/
def twoJourneys : List Journey :=
  [ ⟨2, 1, 100, 110, [⟨1, 2, some ⟨10, 10, 1, 2⟩, 110, 100⟩]⟩
  , ⟨4, 1, 101, 130, [⟨1, 4, some ⟨11, 11, 1, 2⟩, 130, 101⟩]⟩ ]

/-- C1.  Scenario S1 does not return one journey: the downstream sub-iterator
is built as data[1:3] over the two-element index list of trip 10 (capacity 2),
an out-of-range slice expression, so the call panics instead of returning. -/
theorem c1_s1_depart_at_panics :
    SimpleRaptor s1Input = Except.error "runtime error: slice bounds out of range" := by
  rfl

/-- C2.  Scenario S2 does not return one journey: the reverse sub-iterator is
built as data[-1:1] over the two-element index list of trip 10, a negative
slice bound, so the call panics instead of returning. -/
theorem c2_s2_arrive_by_panics :
    SimpleRaptor s2Input = Except.error "runtime error: slice bounds out of range" := by
  rfl

/-- C4.  With MaximumTransfers = 2 the forward search returns a journey with
three in-vehicle legs: a label improved earlier in a round is re-extended
later in the same round, so a single round can append two in-vehicle legs. -/
theorem c4_three_legs_with_two_rounds :
    SimpleRaptor c4Input = Except.ok [c4Journey] ∧
    vehicleLegCount c4Journey = 3 ∧ c4Input.MaximumTransfers = 2 := by
  refine ⟨by rfl, by rfl, by rfl⟩

/-- C5.  On a timetable satisfying the full input precondition the forward
search returns a journey whose single leg departs at 100 and arrives at 50:
the downstream scan of trip 20 overruns its index slice into zero-filled
spare capacity and treats stop-time index 0 as a downstream stop of the
boarded trip. -/
theorem c5_leg_departs_after_arrival :
    ValidRaptorTimetable c5Input ∧
    SimpleRaptor c5Input = Except.ok [c5Journey] ∧
    c5Journey.Legs = [⟨1, 4, some ⟨90, 90, 1, 1⟩, 50, 100⟩] ∧
    ¬ ((100 : Int) ≤ 50) := by
  refine ⟨by decide, by rfl, by rfl, by decide⟩

/-- C9 counterexample.  A mode value that is neither depart_at nor arrive_by
is not reported as a fatal error: the call returns normally with a computed
(arrive-by) result. -/
theorem c9_bogus_mode_returns_normally :
    c9Input.Mode ≠ modeDepartAt ∧ c9Input.Mode ≠ modeArriveBy ∧
    SimpleRaptor c9Input = Except.ok [] := by
  refine ⟨by decide, by decide, by rfl⟩

/-- C9 amended.  Any mode value other than depart_at, impossible values
included, silently runs the arrive-by search. -/
theorem c9_non_depart_modes_run_arrive_by (input : SimpleRaptorInput)
    (h : input.Mode ≠ modeDepartAt) : SimpleRaptor input = SimpleRaptorArriveBy input := by
  unfold SimpleRaptor
  rw [if_neg h]

/-- Witness for the C9 amended theorem at the concrete bogus-mode input. -/
theorem c9_non_depart_modes_run_arrive_by_witness :
    c9Input.Mode ≠ modeDepartAt ∧ SimpleRaptor c9Input = SimpleRaptorArriveBy c9Input :=
  ⟨by decide, c9_non_depart_modes_run_arrive_by c9Input (by decide)⟩

/-- C10 counterexample.  With a caller-supplied StopTimesByUniqueStopId index
that attributes a stop time of stop 2 to origin stop 1, the forward search
returns a journey whose FromUniqueStopID is 2, not an id of any stop in
FromStops. -/
theorem c10_journey_from_non_origin :
    SimpleRaptorDepartAt c10Input = Except.ok [c10Journey] ∧
    c10Journey.FromUniqueStopID ∉ c10Input.FromStops.map GtfsStopStruct.UniqueID := by
  refine ⟨by rfl, by decide⟩

/-- A slice of the backing array that stays within the visible length never
sees the spare-capacity padding. -/
theorem padded_window_eq (s : GoSlice) (o c : Nat) (h : o + c ≤ s.data.length) :
    (s.padded.drop o).take c = (s.data.drop o).take c := by
  unfold GoSlice.padded
  rw [List.drop_append_of_le_length (by omega),
    List.take_append_of_le_length (by rw [List.length_drop]; omega)]

/-- C7.  For any slice contents, capacity and direction, and any offset o and
count c with o + c within the slice length, the sub-iterator is built without
a bounds panic and yields exactly the elements at positions o through o+c-1
of the parent iterator's own iteration order (so for a reverse parent,
offset 0 names the physical tail element). -/
theorem c7_subIterator_window (data : List Nat) (cap : Nat) (rev : Bool) (o c : Nat)
    (hcap : data.length ≤ cap) (h : o + c ≤ data.length) :
    ∃ sub : SliceIterator,
      (NewSliceIterator ⟨data, cap⟩ rev).subIterator (o : Int) (c : Int) = Except.ok sub ∧
      sub.iterList = ((NewSliceIterator ⟨data, cap⟩ rev).iterList.drop o).take c := by
  cases rev with
  | false =>
    have hcond : (0 : Int) ≤ (o : Int) ∧ (o : Int) ≤ (o : Int) + (c : Int) ∧
        (o : Int) + (c : Int) ≤ ((cap : Nat) : Int) := by omega
    have hrange : goSliceRange ⟨data, cap⟩ (o : Int) ((o : Int) + (c : Int)) =
        Except.ok ((data.drop o).take c) := by
      unfold goSliceRange
      rw [if_pos hcond]
      have hlo : ((o : Int)).toNat = o := by omega
      have hlen : ((o : Int) + (c : Int) - (o : Int)).toNat = c := by omega
      rw [hlo, hlen, padded_window_eq ⟨data, cap⟩ o c h]
    refine ⟨⟨⟨(data.drop o).take c, ((data.drop o).take c).length⟩, false⟩, ?_, ?_⟩
    · show (match goSliceRange ⟨data, cap⟩ (o : Int) ((o : Int) + (c : Int)) with
        | Except.ok w => Except.ok (⟨⟨w, w.length⟩, false⟩ : SliceIterator)
        | Except.error e => Except.error e) = _
      rw [hrange]
    · show (data.drop o).take c = (data.drop o).take c
      rfl
  | true =>
    have hcond : (0 : Int) ≤ (data.length : Int) - (o : Int) - (c : Int) ∧
        (data.length : Int) - (o : Int) - (c : Int) ≤ (data.length : Int) - (o : Int) ∧
        (data.length : Int) - (o : Int) ≤ ((cap : Nat) : Int) := by omega
    have hrange : goSliceRange ⟨data, cap⟩ ((data.length : Int) - (o : Int) - (c : Int))
        ((data.length : Int) - (o : Int)) =
        Except.ok ((data.drop (data.length - o - c)).take c) := by
      unfold goSliceRange
      rw [if_pos hcond]
      have hlo : ((data.length : Int) - (o : Int) - (c : Int)).toNat = data.length - o - c := by
        omega
      have hlen : ((data.length : Int) - (o : Int) -
          ((data.length : Int) - (o : Int) - (c : Int))).toNat = c := by omega
      rw [hlo, hlen, padded_window_eq ⟨data, cap⟩ (data.length - o - c) c
        (by show data.length - o - c + c ≤ data.length; omega)]
    refine ⟨⟨⟨(data.drop (data.length - o - c)).take c,
        ((data.drop (data.length - o - c)).take c).length⟩, true⟩, ?_, ?_⟩
    · show (match goSliceRange ⟨data, cap⟩ ((data.length : Int) - (o : Int) - (c : Int))
          ((data.length : Int) - (o : Int)) with
        | Except.ok w => Except.ok (⟨⟨w, w.length⟩, true⟩ : SliceIterator)
        | Except.error e => Except.error e) = _
      rw [hrange]
    · show ((data.drop (data.length - o - c)).take c).reverse =
        (data.reverse.drop o).take c
      rw [List.drop_reverse, List.take_reverse, List.length_take, List.drop_take]
      have hm : (data.length - o) ⊓ data.length - c = data.length - o - c := by omega
      rw [hm]
      have hn : data.length - o - (data.length - o - c) = c := by omega
      rw [hn]

/-- Witness for C7 at a concrete reverse iterator: offset 1, count 2 of the
reverse iteration of [10, 20, 30]. -/
theorem c7_subIterator_window_witness :
    ∃ sub : SliceIterator,
      (NewSliceIterator ⟨[10, 20, 30], 4⟩ true).subIterator (((1 : Nat) : Int)) (((2 : Nat) : Int)) =
        Except.ok sub ∧
      sub.iterList = ((NewSliceIterator ⟨[10, 20, 30], 4⟩ true).iterList.drop 1).take 2 :=
  c7_subIterator_window [10, 20, 30] 4 true 1 2 (by decide) (by decide)

/-- C6.  For every input with the optional index fields nil, supplying the
three indices PrepareRaptorInput itself builds yields the same result: the
supplied maps are adopted verbatim, so the search runs on an identical
prepared input. -/
theorem c6_supplied_indices_same_journeys (inp : SimpleRaptorInput) :
    SimpleRaptor (withBuiltIndices (clearIndices inp)) = SimpleRaptor (clearIndices inp) := by
  rfl

/-- Reading back the key just written. -/
theorem alGet_alPut_self {β : Type} (m : List (Nat × β)) (k : Nat) (v : β) :
    alGet (alPut m k v) k = some v := by
  induction m with
  | nil => simp [alPut, alGet]
  | cons p rest ih =>
    obtain ⟨k0, v0⟩ := p
    by_cases hk : k0 = k
    · simp [alPut, alGet, hk]
    · simp only [alPut, alGet, if_neg hk]
      exact ih

/-- Writing one key leaves every other key unchanged. -/
theorem alGet_alPut_ne {β : Type} (m : List (Nat × β)) (k k2 : Nat) (v : β) (h : k2 ≠ k) :
    alGet (alPut m k v) k2 = alGet m k2 := by
  induction m with
  | nil =>
    simp only [alPut, alGet]
    rw [if_neg (fun hh => h hh.symm)]
  | cons p rest ih =>
    obtain ⟨k0, v0⟩ := p
    by_cases hk : k0 = k
    · subst hk
      simp only [alPut, if_pos rfl, alGet]
      rw [if_neg (fun hh => h hh.symm), if_neg (fun hh => h hh.symm)]
    · simp only [alPut, if_neg hk, alGet]
      by_cases hk2 : k0 = k2
      · rw [if_pos hk2, if_pos hk2]
      · rw [if_neg hk2, if_neg hk2]
        exact ih

/-- The visible contents of a Go append. -/
theorem goAppend_data (s : GoSlice) (x : Nat) : (goAppend s x).data = s.data ++ [x] := by
  unfold goAppend
  split <;> rfl

/-- A label store only grows under alPut. -/
theorem keepsKeys_alPut (l : List (Nat × RoundSegment)) (k : Nat) (v : RoundSegment) :
    keepsKeys l (alPut l k v) := by
  intro k2 h2
  by_cases hk : k2 = k
  · subst hk
    rw [alGet_alPut_self]
    rfl
  · rw [alGet_alPut_ne l k k2 v hk]
    exact h2

/-- keepsKeys is reflexive. -/
theorem keepsKeys_refl (l : List (Nat × RoundSegment)) : keepsKeys l l := fun _ h => h

/-- keepsKeys is transitive. -/
theorem keepsKeys_trans {l1 l2 l3 : List (Nat × RoundSegment)} (h1 : keepsKeys l1 l2)
    (h2 : keepsKeys l2 l3) : keepsKeys l1 l3 := fun k h => h2 k (h1 k h)

/-- The head of an append with a non-empty left part. -/
theorem head?_append_left {α : Type} (l1 l2 : List α) (h : l1 ≠ []) :
    (l1 ++ l2).head? = l1.head? := by
  cases l1 with
  | nil => cases h rfl
  | cons a t => rfl

/-- A successful Go index read gives the list element. -/
theorem listGet_ok {α : Type} (l : List α) (i : Nat) (v : α)
    (h : listGet l i = Except.ok v) : l.get? i = some v := by
  unfold listGet at h
  cases hg : l.get? i with
  | none => rw [hg] at h; cases h
  | some w => rw [hg] at h; cases h; rfl

/-- Membership in an alPut comes from the map or is the written pair. -/
theorem alPut_mem_cases {β : Type} (p : Nat × β) :
    ∀ (mm : List (Nat × β)) (k : Nat) (v : β), p ∈ alPut mm k v → p ∈ mm ∨ p = (k, v) := by
  intro mm
  induction mm with
  | nil =>
    intro k v hh
    simp only [alPut] at hh
    exact Or.inr (List.mem_singleton.mp hh)
  | cons q qs ihq =>
    intro k v hh
    simp only [alPut] at hh
    split at hh
    · rcases List.mem_cons.mp hh with h1 | h1
      · exact Or.inr h1
      · exact Or.inl (List.mem_cons_of_mem _ h1)
    · rcases List.mem_cons.mp hh with h1 | h1
      · exact Or.inl (h1 ▸ List.mem_cons_self _ _)
      · rcases ihq k v h1 with h2 | h2
        · exact Or.inl (List.mem_cons_of_mem _ h2)
        · exact Or.inr h2

/-- The marking half changes only the marking map. -/
theorem daWalkMark_fields (t : GtfsTransferStruct) (s : SearchState) :
    (daWalkMark t s).labels = s.labels ∧ (daWalkMark t s).journeys = s.journeys ∧
    (daWalkMark t s).fps = s.fps := by
  unfold daWalkMark
  split <;> exact ⟨rfl, rfl, rfl⟩

/-- Every mark present after the marking half was present before or is the
transfer target. -/
theorem daWalkMark_marks (t : GtfsTransferStruct) (s : SearchState) (p : Nat × RaptorMarkedStop)
    (hp : p ∈ (daWalkMark t s).markedNext) :
    p ∈ s.markedNext ∨ p.2.ID = t.ToUniqueStopID := by
  unfold daWalkMark at hp
  split at hp
  · rcases alPut_mem_cases p s.markedNext t.ToUniqueStopID _ hp with h1 | h1
    · exact Or.inl h1
    · refine Or.inr ?_
      rw [h1]
  · exact Or.inl hp

/-- The forward labelling half touches neither journeys, fingerprints nor
marks. -/
theorem daWalkLabel_jfp (st2 : GtfsStopTimeStruct) (veh : RoundSegment) (t : GtfsTransferStruct)
    (s1 : SearchState) :
    (daWalkLabel st2 veh t s1).journeys = s1.journeys ∧
    (daWalkLabel st2 veh t s1).fps = s1.fps ∧
    (daWalkLabel st2 veh t s1).markedNext = s1.markedNext := by
  unfold daWalkLabel
  (repeat' split) <;> exact ⟨rfl, rfl, rfl⟩

/-- The reverse labelling half touches neither journeys, fingerprints nor
marks. -/
theorem abWalkLabel_jfp (stP : GtfsStopTimeStruct) (veh : RoundSegment) (t : GtfsTransferStruct)
    (s1 : SearchState) :
    (abWalkLabel stP veh t s1).journeys = s1.journeys ∧
    (abWalkLabel stP veh t s1).fps = s1.fps ∧
    (abWalkLabel stP veh t s1).markedNext = s1.markedNext := by
  unfold abWalkLabel
  (repeat' split) <;> exact ⟨rfl, rfl, rfl⟩

/-- The transfer-relaxation loop of the forward search touches neither the
journey list nor the fingerprint set. -/
theorem daWalkLoop_jfp (ctx : DepartCtx) (st2 : GtfsStopTimeStruct) (veh : RoundSegment) :
    ∀ (l : List Nat) (s s1 : SearchState), daWalkLoop ctx st2 veh l s = Except.ok s1 →
      s1.journeys = s.journeys ∧ s1.fps = s.fps := by
  intro l
  induction l with
  | nil =>
    intro s s1 h
    simp only [daWalkLoop] at h
    cases h
    exact ⟨rfl, rfl⟩
  | cons i rest ih =>
    intro s s1 h
    simp only [daWalkLoop] at h
    cases hlg : listGet ctx.transfers i with
    | error e => rw [hlg] at h; cases h
    | ok t =>
      rw [hlg] at h
      obtain ⟨h1, h2⟩ := ih _ _ h
      obtain ⟨hlb, hjn, hfp⟩ := daWalkMark_fields t s
      obtain ⟨hj2, hf2, hm2⟩ := daWalkLabel_jfp st2 veh t (daWalkMark t s)
      exact ⟨h1.trans (hj2.trans hjn), h2.trans (hf2.trans hfp)⟩

/-- The improvement step of the forward search touches neither the journey
list nor the fingerprint set. -/
theorem daImprove_jfp (ctx : DepartCtx) (m : RaptorMarkedStop) (curSeg : RoundSegment)
    (st st2 : GtfsStopTimeStruct) (s s2 : SearchState)
    (h : daImprove ctx m curSeg st st2 s = Except.ok s2) :
    s2.journeys = s.journeys ∧ s2.fps = s.fps := by
  simp only [daImprove] at h
  cases hbv : (match alGet s.labels st2.UniqueStopID with
    | none => true
    | some ex => decide (ex.ArrivalTimeInSeconds > st2.ArrivalTimeInSeconds)) with
  | false =>
    rw [hbv] at h
    simp only [Bool.false_eq_true, if_false] at h
    cases h
    exact ⟨rfl, rfl⟩
  | true =>
    rw [hbv] at h
    simp only [if_true] at h
    cases hcv : (ctx.hop || decide (m.Source = sourceArrival)) with
    | true =>
      rw [hcv] at h
      simp only [if_true] at h
      obtain ⟨h1, h2⟩ := daWalkLoop_jfp ctx st2 _ _ _ _ h
      exact ⟨h1, h2⟩
    | false =>
      rw [hcv] at h
      simp only [Bool.false_eq_true, if_false] at h
      cases h
      exact ⟨rfl, rfl⟩

/-- The mark-and-emit step preserves the journeys/fingerprints invariant. -/
theorem daMarkAndEmit_journeysOK (ctx : DepartCtx) (st2 : GtfsStopTimeStruct)
    (s2 : SearchState) (hs : JourneysOK s2) :
    JourneysOK (daMarkAndEmit ctx st2 s2).1 := by
  obtain ⟨hlegs, hnodup, hmem⟩ := hs
  simp only [daMarkAndEmit]
  split
  · split
    · rename_i hguard
      obtain ⟨hfresh, hne, hfirst, hlast⟩ := hguard
      refine ⟨?_, ?_, ?_⟩
      · intro j hj
        rcases List.mem_append.mp hj with hj0 | hj1
        · exact hlegs j hj0
        · rw [List.mem_singleton.mp hj1]
          exact ⟨hne, hfirst, hlast⟩
      · rw [List.map_append]
        rw [List.nodup_append]
        refine ⟨hnodup, List.nodup_singleton _, ?_⟩
        intro a ha hb
        rcases List.mem_map.mp ha with ⟨j0, hj0, rfl⟩
        have hb2 : spansFingerPrint j0.Legs =
            spansFingerPrint (alGetD s2.labels st2.UniqueStopID zeroRoundSegment).Spans := by
          simpa using hb
        apply hfresh
        rw [List.elem_iff]
        show spansFingerPrint (alGetD s2.labels st2.UniqueStopID zeroRoundSegment).Spans ∈ s2.fps
        rw [← hb2]
        exact hmem j0 hj0
      · intro j hj
        rcases List.mem_append.mp hj with hj0 | hj1
        · exact List.mem_append_left _ (hmem j hj0)
        · rw [List.mem_singleton.mp hj1]
          exact List.mem_append_right _ (List.mem_singleton.mpr rfl)
    · exact ⟨hlegs, hnodup, hmem⟩
  · exact ⟨hlegs, hnodup, hmem⟩

/-- One downstream stop time preserves the journeys/fingerprints invariant. -/
theorem daFollower_journeysOK (ctx : DepartCtx) (m : RaptorMarkedStop) (curSeg : RoundSegment)
    (st st2 : GtfsStopTimeStruct) (s s1 : SearchState) (b : Bool)
    (h : daFollower ctx m curSeg st st2 s = Except.ok (s1, b)) (hs : JourneysOK s) :
    JourneysOK s1 := by
  simp only [daFollower] at h
  cases himp : daImprove ctx m curSeg st st2 s with
  | error e => rw [himp] at h; cases h
  | ok s2 =>
    rw [himp] at h
    have hpair : daMarkAndEmit ctx st2 s2 = (s1, b) := Except.ok.inj h
    have hs1 : s1 = (daMarkAndEmit ctx st2 s2).1 := by rw [hpair]
    obtain ⟨h1, h2⟩ := daImprove_jfp ctx m curSeg st st2 s s2 himp
    have hs2 : JourneysOK s2 := by
      unfold JourneysOK
      rw [h1, h2]
      exact hs
    rw [hs1]
    exact daMarkAndEmit_journeysOK ctx st2 s2 hs2

/-- The downstream loop preserves the journeys/fingerprints invariant. -/
theorem daFollowers_journeysOK (ctx : DepartCtx) (m : RaptorMarkedStop) (curSeg : RoundSegment)
    (st : GtfsStopTimeStruct) :
    ∀ (l : List Nat) (s s1 : SearchState), daFollowers ctx m curSeg st l s = Except.ok s1 →
      JourneysOK s → JourneysOK s1 := by
  intro l
  induction l with
  | nil =>
    intro s s1 h hs
    simp only [daFollowers] at h
    cases h
    exact hs
  | cons i rest ih =>
    intro s s1 h hs
    simp only [daFollowers] at h
    split at h
    · cases h
    · rename_i st2 heq
      split at h
      · cases h
      · rename_i s2 b hf
        have hp : JourneysOK s2 := daFollower_journeysOK ctx m curSeg st st2 s s2 b hf hs
        split at h
        · cases h
          exact hp
        · exact ih _ _ h hp

/-- One candidate boarding preserves the journeys/fingerprints invariant. -/
theorem daBoarding_journeysOK (ctx : DepartCtx) (m : RaptorMarkedStop) (curSeg : RoundSegment)
    (s : SearchState) (stIdx : Nat) (s1 : SearchState)
    (h : daBoarding ctx m curSeg s stIdx = Except.ok s1) (hs : JourneysOK s) :
    JourneysOK s1 := by
  simp only [daBoarding] at h
  split at h
  · cases h
  · rename_i st heq
    split at h
    · cases h
      exact hs
    · split at h
      · cases h
      · rename_i firstIdx hfst
        split at h
        · cases h
        · rename_i firstSt hlg2
          split at h
          · cases h
          · rename_i subIt hsub
            exact daFollowers_journeysOK ctx m curSeg st _ _ _ h hs

/-- The boarding loop preserves the journeys/fingerprints invariant. -/
theorem daStopTimesLoop_journeysOK (ctx : DepartCtx) (m : RaptorMarkedStop) (curSeg : RoundSegment) :
    ∀ (l : List Nat) (s s1 : SearchState), daStopTimesLoop ctx m curSeg l s = Except.ok s1 →
      JourneysOK s → JourneysOK s1 := by
  intro l
  induction l with
  | nil =>
    intro s s1 h hs
    simp only [daStopTimesLoop] at h
    cases h
    exact hs
  | cons i rest ih =>
    intro s s1 h hs
    simp only [daStopTimesLoop] at h
    cases hb : daBoarding ctx m curSeg s i with
    | error e => rw [hb] at h; cases h
    | ok sb =>
      rw [hb] at h
      exact ih _ _ h (daBoarding_journeysOK ctx m curSeg s i sb hb hs)

/-- One marked stop preserves the journeys/fingerprints invariant. -/
theorem daMarkedStop_journeysOK (ctx : DepartCtx) (s : SearchState) (m : RaptorMarkedStop)
    (s1 : SearchState) (h : daMarkedStop ctx s m = Except.ok s1) (hs : JourneysOK s) :
    JourneysOK s1 :=
  daStopTimesLoop_journeysOK ctx m _ _ s s1 h hs

/-- The marked-stop loop preserves the journeys/fingerprints invariant. -/
theorem daMarkedLoop_journeysOK (ctx : DepartCtx) :
    ∀ (l : List RaptorMarkedStop) (s s1 : SearchState), daMarkedLoop ctx l s = Except.ok s1 →
      JourneysOK s → JourneysOK s1 := by
  intro l
  induction l with
  | nil =>
    intro s s1 h hs
    simp only [daMarkedLoop] at h
    cases h
    exact hs
  | cons m rest ih =>
    intro s s1 h hs
    simp only [daMarkedLoop] at h
    cases hm : daMarkedStop ctx s m with
    | error e => rw [hm] at h; cases h
    | ok sm =>
      rw [hm] at h
      exact ih _ _ h (daMarkedStop_journeysOK ctx s m sm hm hs)

/-- The round loop preserves the journeys/fingerprints invariant. -/
theorem daRounds_journeysOK (ctx : DepartCtx) :
    ∀ (n : Nat) (marked : List (Nat × RaptorMarkedStop)) (s s1 : SearchState),
      daRounds ctx n marked s = Except.ok s1 → JourneysOK s → JourneysOK s1 := by
  intro n
  induction n with
  | zero =>
    intro marked s s1 h hs
    simp only [daRounds] at h
    cases h
    exact hs
  | succ k ih =>
    intro marked s s1 h hs
    simp only [daRounds] at h
    cases hm : daMarkedLoop ctx (marked.map Prod.snd) { s with markedNext := [] } with
    | error e => rw [hm] at h; cases h
    | ok sm =>
      rw [hm] at h
      refine ih _ _ _ h (daMarkedLoop_journeysOK ctx _ _ _ hm ?_)
      unfold JourneysOK at hs ⊢
      exact hs

/-- The forward search body only returns journeys of the emission shape,
with pairwise-distinct fingerprints. -/
theorem departMain_journeysOK (fromStops : List GtfsStopStruct)
    (transfers : List GtfsTransferStruct) (stopTimes : List GtfsStopTimeStruct)
    (timeRef : Int) (maxT : Nat) (hop : Bool) (toIds : List (Nat × Nat))
    (tBy sBy tsBy : List (Nat × GoSlice)) (js : List Journey)
    (h : departMain fromStops transfers stopTimes timeRef maxT hop toIds tBy sBy tsBy =
      Except.ok js) :
    (∀ j ∈ js, LegsOK j) ∧ (js.map (fun j => spansFingerPrint j.Legs)).Nodup := by
  simp only [departMain] at h
  cases hr : daRounds ⟨stopTimes, transfers, toIds, tBy, sBy, tsBy, hop⟩ maxT
      (initMarks fromStops) ⟨initLabels fromStops timeRef, [], [], [], []⟩ with
  | error e => rw [hr] at h; cases h
  | ok sfin =>
    rw [hr] at h
    cases h
    have h0 : JourneysOK ⟨initLabels fromStops timeRef, [], [], [], []⟩ := by
      refine ⟨?_, ?_, ?_⟩ <;> simp [JourneysOK]
    obtain ⟨ha, hb, hc⟩ := daRounds_journeysOK _ _ _ _ sfin hr h0
    exact ⟨ha, hb⟩

/-- SimpleRaptorDepartAt only returns journeys of the emission shape, with
pairwise-distinct fingerprints. -/
theorem departAt_journeysOK (inp : SimpleRaptorInput) (js : List Journey)
    (h : SimpleRaptorDepartAt inp = Except.ok js) :
    (∀ j ∈ js, LegsOK j) ∧ (js.map (fun j => spansFingerPrint j.Legs)).Nodup := by
  unfold SimpleRaptorDepartAt at h
  exact departMain_journeysOK _ _ _ _ _ _ _ _ _ _ js h

/-- The transfer-relaxation loop of the reverse search touches neither the
journey list nor the fingerprint set. -/
theorem abWalkLoop_jfp (ctx : ArriveCtx) (stP : GtfsStopTimeStruct) (veh : RoundSegment) :
    ∀ (l : List Nat) (s s1 : SearchState), abWalkLoop ctx stP veh l s = Except.ok s1 →
      s1.journeys = s.journeys ∧ s1.fps = s.fps := by
  intro l
  induction l with
  | nil =>
    intro s s1 h
    simp only [abWalkLoop] at h
    cases h
    exact ⟨rfl, rfl⟩
  | cons i rest ih =>
    intro s s1 h
    simp only [abWalkLoop] at h
    cases hlg : listGet ctx.transfers i with
    | error e => rw [hlg] at h; cases h
    | ok t =>
      rw [hlg] at h
      obtain ⟨h1, h2⟩ := ih _ _ h
      obtain ⟨hlb, hjn, hfp⟩ := daWalkMark_fields t s
      obtain ⟨hj2, hf2, hm2⟩ := abWalkLabel_jfp stP veh t (daWalkMark t s)
      exact ⟨h1.trans (hj2.trans hjn), h2.trans (hf2.trans hfp)⟩

/-- The improvement step of the reverse search touches neither the journey
list nor the fingerprint set. -/
theorem abImprove_jfp (ctx : ArriveCtx) (m : RaptorMarkedStop) (curSeg : RoundSegment)
    (st stP : GtfsStopTimeStruct) (s s2 : SearchState)
    (h : abImprove ctx m curSeg st stP s = Except.ok s2) :
    s2.journeys = s.journeys ∧ s2.fps = s.fps := by
  simp only [abImprove] at h
  cases hbv : (match alGet s.labels stP.UniqueStopID with
    | none => true
    | some ex => decide (stP.ArrivalTimeInSeconds > ex.ArrivalTimeInSeconds)) with
  | false =>
    rw [hbv] at h
    simp only [Bool.false_eq_true, if_false] at h
    cases h
    exact ⟨rfl, rfl⟩
  | true =>
    rw [hbv] at h
    simp only [if_true] at h
    cases hcv : (ctx.hop || decide (m.Source = sourceArrival)) with
    | true =>
      rw [hcv] at h
      simp only [if_true] at h
      obtain ⟨h1, h2⟩ := abWalkLoop_jfp ctx stP _ _ _ _ h
      exact ⟨h1, h2⟩
    | false =>
      rw [hcv] at h
      simp only [Bool.false_eq_true, if_false] at h
      cases h
      exact ⟨rfl, rfl⟩

/-- The reverse mark-and-emit step preserves the journeys/fingerprints
invariant. -/
theorem abMarkAndEmit_journeysOK (ctx : ArriveCtx) (stP : GtfsStopTimeStruct)
    (s2 : SearchState) (hs : JourneysOK s2) :
    JourneysOK (abMarkAndEmit ctx stP s2).1 := by
  obtain ⟨hlegs, hnodup, hmem⟩ := hs
  simp only [abMarkAndEmit]
  split
  · split
    · rename_i hguard
      obtain ⟨hfresh, hne, hfirst, hlast⟩ := hguard
      refine ⟨?_, ?_, ?_⟩
      · intro j hj
        rcases List.mem_append.mp hj with hj0 | hj1
        · exact hlegs j hj0
        · rw [List.mem_singleton.mp hj1]
          exact ⟨hne, hfirst, hlast⟩
      · rw [List.map_append]
        rw [List.nodup_append]
        refine ⟨hnodup, List.nodup_singleton _, ?_⟩
        intro a ha hb
        rcases List.mem_map.mp ha with ⟨j0, hj0, rfl⟩
        have hb2 : spansFingerPrint j0.Legs =
            spansFingerPrint (alGetD s2.labels stP.UniqueStopID zeroRoundSegment).Spans := by
          simpa using hb
        apply hfresh
        rw [List.elem_iff]
        show spansFingerPrint (alGetD s2.labels stP.UniqueStopID zeroRoundSegment).Spans ∈ s2.fps
        rw [← hb2]
        exact hmem j0 hj0
      · intro j hj
        rcases List.mem_append.mp hj with hj0 | hj1
        · exact List.mem_append_left _ (hmem j hj0)
        · rw [List.mem_singleton.mp hj1]
          exact List.mem_append_right _ (List.mem_singleton.mpr rfl)
    · exact ⟨hlegs, hnodup, hmem⟩
  · exact ⟨hlegs, hnodup, hmem⟩

/-- One preceding stop time preserves the journeys/fingerprints invariant. -/
theorem abFollower_journeysOK (ctx : ArriveCtx) (m : RaptorMarkedStop) (curSeg : RoundSegment)
    (st stP : GtfsStopTimeStruct) (s s1 : SearchState) (b : Bool)
    (h : abFollower ctx m curSeg st stP s = Except.ok (s1, b)) (hs : JourneysOK s) :
    JourneysOK s1 := by
  simp only [abFollower] at h
  cases himp : abImprove ctx m curSeg st stP s with
  | error e => rw [himp] at h; cases h
  | ok s2 =>
    rw [himp] at h
    have hpair : abMarkAndEmit ctx stP s2 = (s1, b) := Except.ok.inj h
    have hs1 : s1 = (abMarkAndEmit ctx stP s2).1 := by rw [hpair]
    obtain ⟨h1, h2⟩ := abImprove_jfp ctx m curSeg st stP s s2 himp
    have hs2 : JourneysOK s2 := by
      unfold JourneysOK
      rw [h1, h2]
      exact hs
    rw [hs1]
    exact abMarkAndEmit_journeysOK ctx stP s2 hs2

/-- The upstream loop preserves the journeys/fingerprints invariant. -/
theorem abFollowers_journeysOK (ctx : ArriveCtx) (m : RaptorMarkedStop) (curSeg : RoundSegment)
    (st : GtfsStopTimeStruct) :
    ∀ (l : List Nat) (s s1 : SearchState), abFollowers ctx m curSeg st l s = Except.ok s1 →
      JourneysOK s → JourneysOK s1 := by
  intro l
  induction l with
  | nil =>
    intro s s1 h hs
    simp only [abFollowers] at h
    cases h
    exact hs
  | cons i rest ih =>
    intro s s1 h hs
    simp only [abFollowers] at h
    split at h
    · cases h
    · rename_i stP heq
      split at h
      · cases h
      · rename_i s2 b hf
        have hp : JourneysOK s2 := abFollower_journeysOK ctx m curSeg st stP s s2 b hf hs
        split at h
        · cases h
          exact hp
        · exact ih _ _ h hp

/-- One candidate alighting preserves the journeys/fingerprints invariant. -/
theorem abBoarding_journeysOK (ctx : ArriveCtx) (m : RaptorMarkedStop) (curSeg : RoundSegment)
    (s : SearchState) (stIdx : Nat) (s1 : SearchState)
    (h : abBoarding ctx m curSeg s stIdx = Except.ok s1) (hs : JourneysOK s) :
    JourneysOK s1 := by
  simp only [abBoarding] at h
  split at h
  · cases h
  · rename_i st heq
    split at h
    · cases h
      exact hs
    · split at h
      · cases h
      · rename_i lastIdx hfst
        split at h
        · cases h
        · rename_i lastSt hlg2
          split at h
          · cases h
          · rename_i subIt hsub
            exact abFollowers_journeysOK ctx m curSeg st _ _ _ h hs

/-- The alighting loop preserves the journeys/fingerprints invariant. -/
theorem abStopTimesLoop_journeysOK (ctx : ArriveCtx) (m : RaptorMarkedStop) (curSeg : RoundSegment) :
    ∀ (l : List Nat) (s s1 : SearchState), abStopTimesLoop ctx m curSeg l s = Except.ok s1 →
      JourneysOK s → JourneysOK s1 := by
  intro l
  induction l with
  | nil =>
    intro s s1 h hs
    simp only [abStopTimesLoop] at h
    cases h
    exact hs
  | cons i rest ih =>
    intro s s1 h hs
    simp only [abStopTimesLoop] at h
    cases hb : abBoarding ctx m curSeg s i with
    | error e => rw [hb] at h; cases h
    | ok sb =>
      rw [hb] at h
      exact ih _ _ h (abBoarding_journeysOK ctx m curSeg s i sb hb hs)

/-- One marked stop preserves the journeys/fingerprints invariant in the
reverse search. -/
theorem abMarkedStop_journeysOK (ctx : ArriveCtx) (s : SearchState) (m : RaptorMarkedStop)
    (s1 : SearchState) (h : abMarkedStop ctx s m = Except.ok s1) (hs : JourneysOK s) :
    JourneysOK s1 :=
  abStopTimesLoop_journeysOK ctx m _ _ s s1 h hs

/-- The marked-stop loop preserves the journeys/fingerprints invariant in
the reverse search. -/
theorem abMarkedLoop_journeysOK (ctx : ArriveCtx) :
    ∀ (l : List RaptorMarkedStop) (s s1 : SearchState), abMarkedLoop ctx l s = Except.ok s1 →
      JourneysOK s → JourneysOK s1 := by
  intro l
  induction l with
  | nil =>
    intro s s1 h hs
    simp only [abMarkedLoop] at h
    cases h
    exact hs
  | cons m rest ih =>
    intro s s1 h hs
    simp only [abMarkedLoop] at h
    cases hm : abMarkedStop ctx s m with
    | error e => rw [hm] at h; cases h
    | ok sm =>
      rw [hm] at h
      exact ih _ _ h (abMarkedStop_journeysOK ctx s m sm hm hs)

/-- The reverse round loop preserves the journeys/fingerprints invariant. -/
theorem abRounds_journeysOK (ctx : ArriveCtx) :
    ∀ (n : Nat) (marked : List (Nat × RaptorMarkedStop)) (s s1 : SearchState),
      abRounds ctx n marked s = Except.ok s1 → JourneysOK s → JourneysOK s1 := by
  intro n
  induction n with
  | zero =>
    intro marked s s1 h hs
    simp only [abRounds] at h
    cases h
    exact hs
  | succ k ih =>
    intro marked s s1 h hs
    simp only [abRounds] at h
    cases hm : abMarkedLoop ctx (marked.map Prod.snd) { s with markedNext := [] } with
    | error e => rw [hm] at h; cases h
    | ok sm =>
      rw [hm] at h
      refine ih _ _ _ h (abMarkedLoop_journeysOK ctx _ _ _ hm ?_)
      unfold JourneysOK at hs ⊢
      exact hs

/-- The reverse search body only returns journeys of the emission shape,
with pairwise-distinct fingerprints. -/
theorem arriveMain_journeysOK (toStops : List GtfsStopStruct)
    (transfers : List GtfsTransferStruct) (stopTimes : List GtfsStopTimeStruct)
    (timeRef : Int) (maxT : Nat) (hop : Bool) (fromIds : List (Nat × Nat))
    (tBy sBy tsBy : List (Nat × GoSlice)) (js : List Journey)
    (h : arriveMain toStops transfers stopTimes timeRef maxT hop fromIds tBy sBy tsBy =
      Except.ok js) :
    (∀ j ∈ js, LegsOK j) ∧ (js.map (fun j => spansFingerPrint j.Legs)).Nodup := by
  simp only [arriveMain] at h
  cases hr : abRounds ⟨stopTimes, transfers, fromIds, tBy, sBy, tsBy, hop⟩ maxT
      (initMarks toStops) ⟨initLabels toStops timeRef, [], [], [], []⟩ with
  | error e => rw [hr] at h; cases h
  | ok sfin =>
    rw [hr] at h
    cases h
    have h0 : JourneysOK ⟨initLabels toStops timeRef, [], [], [], []⟩ := by
      refine ⟨?_, ?_, ?_⟩ <;> simp [JourneysOK]
    obtain ⟨ha, hb, hc⟩ := abRounds_journeysOK _ _ _ _ sfin hr h0
    exact ⟨ha, hb⟩

/-- SimpleRaptorArriveBy only returns journeys of the emission shape, with
pairwise-distinct fingerprints. -/
theorem arriveBy_journeysOK (inp : SimpleRaptorInput) (js : List Journey)
    (h : SimpleRaptorArriveBy inp = Except.ok js) :
    (∀ j ∈ js, LegsOK j) ∧ (js.map (fun j => spansFingerPrint j.Legs)).Nodup := by
  unfold SimpleRaptorArriveBy at h
  exact arriveMain_journeysOK _ _ _ _ _ _ _ _ _ _ js h

/-- SimpleRaptor, in either mode, only returns journeys of the emission
shape, with pairwise-distinct fingerprints. -/
theorem simpleRaptor_journeysOK (inp : SimpleRaptorInput) (js : List Journey)
    (h : SimpleRaptor inp = Except.ok js) :
    (∀ j ∈ js, LegsOK j) ∧ (js.map (fun j => spansFingerPrint j.Legs)).Nodup := by
  unfold SimpleRaptor at h
  split at h
  · exact departAt_journeysOK inp js h
  · exact arriveBy_journeysOK inp js h

/-- C3.  For every input and in both modes, every journey SimpleRaptor
returns has non-empty Legs whose first and last elements carry a non-nil
ViaTrip: no returned journey begins or ends with a walking transfer. -/
theorem c3_boundary_legs_in_vehicle (inp : SimpleRaptorInput) (js : List Journey)
    (h : SimpleRaptor inp = Except.ok js) (j : Journey) (hj : j ∈ js) :
    j.Legs ≠ [] ∧ firstViaSome j.Legs = true ∧ lastViaSome j.Legs = true :=
  (simpleRaptor_journeysOK inp js h).1 j hj

/-- Witness for C3 at the clean single-trip input. -/
theorem c3_boundary_legs_in_vehicle_witness :
    cleanJourney.Legs ≠ [] ∧ firstViaSome cleanJourney.Legs = true ∧
    lastViaSome cleanJourney.Legs = true :=
  c3_boundary_legs_in_vehicle cleanInput [cleanJourney] (by rfl) cleanJourney
    (List.mem_singleton.mpr rfl)

/-- C8.  For every input and in both modes, the journeys SimpleRaptor
returns have pairwise distinct fingerprints, the fingerprint of a journey
being the legs joined as from|trip|to with separator ->. -/
theorem c8_fingerprints_pairwise_distinct (inp : SimpleRaptorInput) (js : List Journey)
    (h : SimpleRaptor inp = Except.ok js) :
    List.Pairwise (fun a b => a ≠ b) (js.map (fun j => spansFingerPrint j.Legs)) :=
  (simpleRaptor_journeysOK inp js h).2

/-- Witness for C8 at an input returning two journeys. -/
theorem c8_fingerprints_pairwise_distinct_witness :
    List.Pairwise (fun a b => a ≠ b)
      (twoJourneys.map (fun j => spansFingerPrint j.Legs)) :=
  c8_fingerprints_pairwise_distinct twoJourneyInput twoJourneys (by rfl)

/-- Membership in a fold of alPut over stops, generalised over the start
accumulator: a key is present afterwards iff present before or listed. -/
theorem initLabels_mem_aux (stops : List GtfsStopStruct) (t : Int) :
    ∀ (acc : List (Nat × RoundSegment)) (k : Nat) (seg : RoundSegment),
      alGet (stops.foldl (fun m s => alPut m s.UniqueID ⟨s.UniqueID, t, []⟩) acc) k = some seg →
      alGet acc k = some seg ∨ (seg = ⟨k, t, []⟩ ∧ k ∈ stops.map GtfsStopStruct.UniqueID) := by
  induction stops with
  | nil =>
    intro acc k seg h
    exact Or.inl h
  | cons s rest ih =>
    intro acc k seg h
    rcases ih _ k seg h with hacc | hnew
    · by_cases hk : k = s.UniqueID
      · subst hk
        rw [alGet_alPut_self] at hacc
        cases hacc
        exact Or.inr ⟨rfl, by simp⟩
      · rw [alGet_alPut_ne _ _ _ _ hk] at hacc
        exact Or.inl hacc
    · exact Or.inr ⟨hnew.1, by simp [hnew.2]⟩

/-- Every label created by the initialisation is an empty-span label at a
listed stop. -/
theorem initLabels_spec (stops : List GtfsStopStruct) (t : Int) (k : Nat) (seg : RoundSegment)
    (h : alGet (initLabels stops t) k = some seg) :
    seg = ⟨k, t, []⟩ ∧ k ∈ stops.map GtfsStopStruct.UniqueID := by
  rcases initLabels_mem_aux stops t [] k seg h with hacc | hnew
  · simp [alGet] at hacc
  · exact hnew

/-- Keys present in a fold of alPut stay present. -/
theorem foldl_alPut_keeps {β : Type} (f : GtfsStopStruct → β) (stops : List GtfsStopStruct) :
    ∀ (acc : List (Nat × β)) (k : Nat),
      (alGet acc k).isSome = true →
      (alGet (stops.foldl (fun m s => alPut m s.UniqueID (f s)) acc) k).isSome = true := by
  induction stops with
  | nil =>
    intro acc k h
    exact h
  | cons s rest ih =>
    intro acc k h
    refine ih _ k ?_
    by_cases hk : k = s.UniqueID
    · subst hk
      rw [alGet_alPut_self]
      rfl
    · rw [alGet_alPut_ne _ _ _ _ hk]
      exact h

/-- Every listed stop obtains a key in a fold of alPut. -/
theorem foldl_alPut_mem {β : Type} (f : GtfsStopStruct → β) (stops : List GtfsStopStruct) :
    ∀ (acc : List (Nat × β)) (k : Nat), k ∈ stops.map GtfsStopStruct.UniqueID →
      (alGet (stops.foldl (fun m s => alPut m s.UniqueID (f s)) acc) k).isSome = true := by
  induction stops with
  | nil =>
    intro acc k h
    simp at h
  | cons s rest ih =>
    intro acc k h
    rw [List.map_cons, List.mem_cons] at h
    rcases h with hk | hk
    · refine foldl_alPut_keeps f rest _ k ?_
      subst hk
      rw [alGet_alPut_self]
      rfl
    · exact ih _ k hk

/-- Every entry of the initial marking map names a listed stop. -/
theorem initMarks_mem_aux (stops : List GtfsStopStruct) :
    ∀ (acc : List (Nat × RaptorMarkedStop)) (p : Nat × RaptorMarkedStop),
      p ∈ stops.foldl (fun m s => alPut m s.UniqueID ⟨s.UniqueID, sourceArrival⟩) acc →
      p ∈ acc ∨ p.2.ID ∈ stops.map GtfsStopStruct.UniqueID := by
  induction stops with
  | nil =>
    intro acc p h
    exact Or.inl h
  | cons s rest ih =>
    intro acc p h
    rcases ih _ _ h with hacc | hmem
    · rcases alPut_mem_cases p acc s.UniqueID _ hacc with h1 | h1
      · exact Or.inl h1
      · refine Or.inr ?_
        rw [h1]
        simp
    · exact Or.inr (by simp [hmem])

/-- Every marked stop of the initial marking is labelled by the initial
label store. -/
theorem initMarks_labelled (stops : List GtfsStopStruct) (t : Int) :
    MarksOK (initLabels stops t) (initMarks stops) := by
  intro p hp
  unfold initMarks at hp
  rcases initMarks_mem_aux stops [] p hp with h0 | h0
  · simp [alGet] at h0
  · unfold initLabels
    exact foldl_alPut_mem (fun s => (⟨s.UniqueID, t, []⟩ : RoundSegment)) stops [] p.2.ID h0

/-- The fold building an index map preserves honesty when every processed
pair is a true (index, element) pair of the stop-time list. -/
theorem appendIdx_honest_aux (sts : List GtfsStopTimeStruct) :
    ∀ (pl : List (Nat × GtfsStopTimeStruct)) (acc : List (Nat × GoSlice)),
      (∀ q ∈ pl, sts.get? q.1 = some q.2) →
      ByStopHonest sts acc →
      ByStopHonest sts (pl.foldl (fun m sti => appendIdx m sti.2.UniqueStopID sti.1) acc) := by
  intro pl
  induction pl with
  | nil =>
    intro acc hpl hacc
    exact hacc
  | cons q rest ih =>
    intro acc hpl hacc
    refine ih _ (fun q2 hq2 => hpl q2 (List.mem_cons_of_mem _ hq2)) ?_
    intro k gs hget i hi st hst
    unfold appendIdx at hget
    by_cases hk : k = q.2.UniqueStopID
    · subst hk
      rw [alGet_alPut_self] at hget
      cases hget
      rw [goAppend_data] at hi
      rcases List.mem_append.mp hi with hold | hnew
      · cases hoget : alGet acc q.2.UniqueStopID with
        | some gs0 =>
          refine hacc _ _ hoget i ?_ st hst
          unfold alGetD at hold
          rw [hoget] at hold
          exact hold
        | none =>
          unfold alGetD at hold
          rw [hoget] at hold
          simp [emptyGoSlice] at hold
      · rw [List.mem_singleton.mp hnew] at hst
        have hq := hpl q (List.mem_cons_self _ _)
        rw [hq] at hst
        cases hst
        rfl
    · rw [alGet_alPut_ne _ _ _ _ hk] at hget
      exact hacc _ _ hget i hi st hst

/-- The stop-times-by-stop index built by PrepareRaptorInput is honest. -/
theorem buildStopTimesByStop_honest (sts : List GtfsStopTimeStruct) :
    ByStopHonest sts (buildStopTimesByStop sts) := by
  unfold buildStopTimesByStop
  refine appendIdx_honest_aux sts sts.enum [] ?_ ?_
  · intro q hq
    rw [List.get?_eq_getElem?]
    exact List.mk_mem_enum_iff_getElem?.mp (by cases q; exact hq)
  · intro k gs hget
    simp [alGet] at hget

/-- A marking map extended at a labelled key stays within the labels. -/
theorem MarksOK_put (labels : List (Nat × RoundSegment)) (marks : List (Nat × RaptorMarkedStop))
    (k : Nat) (src : String) (hM : MarksOK labels marks)
    (hk : (alGet labels k).isSome = true) :
    MarksOK labels (alPut marks k ⟨k, src⟩) := by
  intro p hp
  rcases alPut_mem_cases p marks k _ hp with h1 | h1
  · exact hM p h1
  · rw [h1]
    exact hk

/-- Marks stay labelled when the label store grows. -/
theorem MarksOK_mono {l1 l2 : List (Nat × RoundSegment)} {marks : List (Nat × RaptorMarkedStop)}
    (h : keepsKeys l1 l2) (hM : MarksOK l1 marks) : MarksOK l2 marks :=
  fun p hp => h _ (hM p hp)

/-- Storing a well-formed label preserves the label-store invariant. -/
theorem LabelsOK_put (fromIds : List Nat) (labels : List (Nat × RoundSegment)) (k : Nat)
    (seg : RoundSegment) (hL : LabelsOK fromIds labels) (hne : seg.Spans ≠ [])
    (hhead : ∀ sp, seg.Spans.head? = some sp → sp.FromUniqueStopID ∈ fromIds) :
    LabelsOK fromIds (alPut labels k seg) := by
  intro k2 seg2 hget
  by_cases hk : k2 = k
  · subst hk
    rw [alGet_alPut_self] at hget
    cases hget
    exact ⟨fun hsp => absurd hsp hne, hhead⟩
  · rw [alGet_alPut_ne _ _ _ _ hk] at hget
    exact hL k2 seg2 hget

/-- The forward labelling half preserves the origin invariant, given the
weakened mark condition the marking half establishes. -/
theorem daWalkLabel_origin (fromIds : List Nat) (st2 : GtfsStopTimeStruct) (veh : RoundSegment)
    (t : GtfsTransferStruct) (s1 : SearchState) (hveh : veh.Spans ≠ [])
    (hvhead : ∀ sp, veh.Spans.head? = some sp → sp.FromUniqueStopID ∈ fromIds)
    (hL : LabelsOK fromIds s1.labels)
    (hM : ∀ p ∈ s1.markedNext, p.2.ID = t.ToUniqueStopID ∨
      (alGet s1.labels p.2.ID).isSome = true)
    (hJ : JourneysFromOK fromIds s1.journeys) :
    OriginInv fromIds (daWalkLabel st2 veh t s1) ∧
    keepsKeys s1.labels (daWalkLabel st2 veh t s1).labels := by
  have hwne : (daWalkSeg st2 veh t).Spans ≠ [] := by simp [daWalkSeg]
  have hwhead : ∀ sp, (daWalkSeg st2 veh t).Spans.head? = some sp →
      sp.FromUniqueStopID ∈ fromIds := by
    intro sp hsp
    unfold daWalkSeg at hsp
    rw [head?_append_left _ _ hveh] at hsp
    exact hvhead sp hsp
  unfold daWalkLabel
  split
  · rename_i hnone
    refine ⟨⟨?_, ?_, hJ⟩, ?_⟩
    · exact LabelsOK_put _ _ _ _ hL hwne hwhead
    · intro p hp
      rcases hM p hp with h1 | h1
      · rw [h1, alGet_alPut_self]
        rfl
      · exact keepsKeys_alPut s1.labels t.ToUniqueStopID _ p.2.ID h1
    · exact keepsKeys_alPut s1.labels t.ToUniqueStopID _
  · rename_i exT hex
    split
    · refine ⟨⟨?_, ?_, hJ⟩, ?_⟩
      · exact LabelsOK_put _ _ _ _ hL hwne hwhead
      · intro p hp
        rcases hM p hp with h1 | h1
        · rw [h1, alGet_alPut_self]
          rfl
        · exact keepsKeys_alPut s1.labels t.ToUniqueStopID _ p.2.ID h1
      · exact keepsKeys_alPut s1.labels t.ToUniqueStopID _
    · refine ⟨⟨hL, ?_, hJ⟩, keepsKeys_refl _⟩
      intro p hp
      rcases hM p hp with h1 | h1
      · rw [h1, hex]
        rfl
      · exact h1

/-- One forward transfer-relaxation step preserves the origin invariant when
the in-vehicle chain it extends starts at an origin. -/
theorem daWalkStep_origin (fromIds : List Nat) (st2 : GtfsStopTimeStruct) (veh : RoundSegment)
    (t : GtfsTransferStruct) (s : SearchState) (hveh : veh.Spans ≠ [])
    (hvhead : ∀ sp, veh.Spans.head? = some sp → sp.FromUniqueStopID ∈ fromIds)
    (hs : OriginInv fromIds s) :
    OriginInv fromIds (daWalkStep st2 veh t s) ∧
    keepsKeys s.labels (daWalkStep st2 veh t s).labels := by
  obtain ⟨hL, hM, hJ⟩ := hs
  obtain ⟨hlb, hjn, hfp⟩ := daWalkMark_fields t s
  have hL1 : LabelsOK fromIds (daWalkMark t s).labels := by rw [hlb]; exact hL
  have hM1 : ∀ p ∈ (daWalkMark t s).markedNext, p.2.ID = t.ToUniqueStopID ∨
      (alGet (daWalkMark t s).labels p.2.ID).isSome = true := by
    intro p hp
    rcases daWalkMark_marks t s p hp with h1 | h1
    · right
      rw [hlb]
      exact hM p h1
    · exact Or.inl h1
  have hJ1 : JourneysFromOK fromIds (daWalkMark t s).journeys := by rw [hjn]; exact hJ
  obtain ⟨hinv, hkk⟩ := daWalkLabel_origin fromIds st2 veh t (daWalkMark t s) hveh hvhead hL1 hM1 hJ1
  refine ⟨hinv, ?_⟩
  show keepsKeys s.labels (daWalkLabel st2 veh t (daWalkMark t s)).labels
  intro k hk
  apply hkk
  rw [hlb]
  exact hk

/-- The forward transfer-relaxation loop preserves the origin invariant. -/
theorem daWalkLoop_origin (fromIds : List Nat) (ctx : DepartCtx) (st2 : GtfsStopTimeStruct)
    (veh : RoundSegment) (hveh : veh.Spans ≠ [])
    (hvhead : ∀ sp, veh.Spans.head? = some sp → sp.FromUniqueStopID ∈ fromIds) :
    ∀ (l : List Nat) (s s1 : SearchState), daWalkLoop ctx st2 veh l s = Except.ok s1 →
      OriginInv fromIds s → OriginInv fromIds s1 ∧ keepsKeys s.labels s1.labels := by
  intro l
  induction l with
  | nil =>
    intro s s1 h hs
    simp only [daWalkLoop] at h
    cases h
    exact ⟨hs, keepsKeys_refl _⟩
  | cons i rest ih =>
    intro s s1 h hs
    simp only [daWalkLoop] at h
    cases hlg : listGet ctx.transfers i with
    | error e => rw [hlg] at h; cases h
    | ok t =>
      rw [hlg] at h
      obtain ⟨hstep, hkk1⟩ := daWalkStep_origin fromIds st2 veh t s hveh hvhead hs
      obtain ⟨hinv, hkk2⟩ := ih _ _ h hstep
      exact ⟨hinv, keepsKeys_trans hkk1 hkk2⟩

/-- The forward improvement step preserves the origin invariant, keeps the
label store growing, and leaves the downstream stop labelled. -/
theorem daImprove_origin (fromIds : List Nat) (ctx : DepartCtx) (m : RaptorMarkedStop)
    (curSeg : RoundSegment) (st st2 : GtfsStopTimeStruct) (s s2 : SearchState)
    (h : daImprove ctx m curSeg st st2 s = Except.ok s2)
    (hcur : CurSegOK fromIds m.ID curSeg) (hstid : st.UniqueStopID = m.ID)
    (hs : OriginInv fromIds s) :
    OriginInv fromIds s2 ∧ keepsKeys s.labels s2.labels ∧
    (alGet s2.labels st2.UniqueStopID).isSome = true := by
  have hveh_ne : (daVehSeg curSeg st st2).Spans ≠ [] := by
    simp [daVehSeg]
  have hveh_head : ∀ sp, (daVehSeg curSeg st st2).Spans.head? = some sp →
      sp.FromUniqueStopID ∈ fromIds := by
    intro sp hsp
    simp only [daVehSeg] at hsp
    cases hcs : curSeg.Spans with
    | nil =>
      rw [hcs] at hsp
      simp at hsp
      rw [← hsp]
      show st.UniqueStopID ∈ fromIds
      rw [hstid]
      exact hcur.1 hcs
    | cons a tl =>
      rw [hcs] at hsp
      have ha : a = sp := by
        simpa using hsp
      rw [← ha]
      refine hcur.2 a ?_
      rw [hcs]
      rfl
  simp only [daImprove] at h
  cases hbv : (match alGet s.labels st2.UniqueStopID with
    | none => true
    | some ex => decide (ex.ArrivalTimeInSeconds > st2.ArrivalTimeInSeconds)) with
  | false =>
    rw [hbv] at h
    simp only [Bool.false_eq_true, if_false] at h
    cases h
    refine ⟨hs, keepsKeys_refl _, ?_⟩
    cases hget : alGet s.labels st2.UniqueStopID with
    | none =>
      rw [hget] at hbv
      cases hbv
    | some ex =>
      rfl
  | true =>
    rw [hbv] at h
    simp only [if_true] at h
    obtain ⟨hL, hM, hJ⟩ := hs
    have hinv1 : OriginInv fromIds
        { s with labels := alPut s.labels st2.UniqueStopID (daVehSeg curSeg st st2) } := by
      refine ⟨?_, ?_, hJ⟩
      · exact LabelsOK_put fromIds s.labels st2.UniqueStopID _ hL hveh_ne hveh_head
      · exact MarksOK_mono (keepsKeys_alPut s.labels st2.UniqueStopID _) hM
    cases hcv : (ctx.hop || decide (m.Source = sourceArrival)) with
    | true =>
      rw [hcv] at h
      simp only [if_true] at h
      obtain ⟨hinv2, hkk⟩ := daWalkLoop_origin fromIds ctx st2 (daVehSeg curSeg st st2)
        hveh_ne hveh_head _ _ _ h hinv1
      refine ⟨hinv2, ?_, ?_⟩
      · exact keepsKeys_trans (keepsKeys_alPut s.labels st2.UniqueStopID _) hkk
      · refine hkk st2.UniqueStopID ?_
        show (alGet (alPut s.labels st2.UniqueStopID (daVehSeg curSeg st st2))
          st2.UniqueStopID).isSome = true
        rw [alGet_alPut_self]
        rfl
    | false =>
      rw [hcv] at h
      simp only [Bool.false_eq_true, if_false] at h
      cases h
      refine ⟨hinv1, keepsKeys_alPut s.labels st2.UniqueStopID _, ?_⟩
      show (alGet (alPut s.labels st2.UniqueStopID (daVehSeg curSeg st st2))
        st2.UniqueStopID).isSome = true
      rw [alGet_alPut_self]
      rfl

/-- The forward mark-and-emit step preserves the origin invariant when the
downstream stop is labelled; the label store is unchanged. -/
theorem daMarkAndEmit_origin (fromIds : List Nat) (ctx : DepartCtx)
    (st2 : GtfsStopTimeStruct) (s2 : SearchState) (hs : OriginInv fromIds s2)
    (hlab : (alGet s2.labels st2.UniqueStopID).isSome = true) :
    OriginInv fromIds (daMarkAndEmit ctx st2 s2).1 ∧
    keepsKeys s2.labels (daMarkAndEmit ctx st2 s2).1.labels := by
  obtain ⟨hL, hM, hJ⟩ := hs
  have hM3 : MarksOK s2.labels
      (alPut s2.markedNext st2.UniqueStopID ⟨st2.UniqueStopID, sourceArrival⟩) :=
    MarksOK_put _ _ _ _ hM hlab
  cases hget : alGet s2.labels st2.UniqueStopID with
  | none =>
    rw [hget] at hlab
    cases hlab
  | some seg0 =>
    have hJnew : ∀ sp, seg0.Spans.head? = some sp → sp.FromUniqueStopID ∈ fromIds :=
      (hL st2.UniqueStopID seg0 hget).2
    simp only [daMarkAndEmit]
    split
    · split
      · rename_i hguard
        refine ⟨⟨hL, hM3, ?_⟩, keepsKeys_refl _⟩
        intro j hj
        rcases List.mem_append.mp hj with hj0 | hj1
        · exact hJ j hj0
        · rw [List.mem_singleton.mp hj1]
          obtain ⟨hfresh, hne, hfirst, hlast⟩ := hguard
          show ((alGetD s2.labels st2.UniqueStopID zeroRoundSegment).Spans.head?.getD
            defaultSpan).FromUniqueStopID ∈ fromIds
          unfold alGetD at hne ⊢
          rw [hget] at hne ⊢
          simp only [Option.getD_some] at hne ⊢
          cases hcs : seg0.Spans with
          | nil => exact absurd hcs hne
          | cons a tl =>
            show a.FromUniqueStopID ∈ fromIds
            refine hJnew a ?_
            rw [hcs]
            simp
      · exact ⟨⟨hL, hM3, hJ⟩, keepsKeys_refl _⟩
    · exact ⟨⟨hL, hM3, hJ⟩, keepsKeys_refl _⟩

/-- One downstream stop time preserves the origin invariant. -/
theorem daFollower_origin (fromIds : List Nat) (ctx : DepartCtx) (m : RaptorMarkedStop)
    (curSeg : RoundSegment) (st st2 : GtfsStopTimeStruct) (s s1 : SearchState) (b : Bool)
    (h : daFollower ctx m curSeg st st2 s = Except.ok (s1, b))
    (hcur : CurSegOK fromIds m.ID curSeg) (hstid : st.UniqueStopID = m.ID)
    (hs : OriginInv fromIds s) :
    OriginInv fromIds s1 ∧ keepsKeys s.labels s1.labels := by
  simp only [daFollower] at h
  cases himp : daImprove ctx m curSeg st st2 s with
  | error e => rw [himp] at h; cases h
  | ok s2 =>
    rw [himp] at h
    have hpair : daMarkAndEmit ctx st2 s2 = (s1, b) := Except.ok.inj h
    have hs1 : s1 = (daMarkAndEmit ctx st2 s2).1 := by rw [hpair]
    obtain ⟨hinv2, hkk2, hlab⟩ := daImprove_origin fromIds ctx m curSeg st st2 s s2 himp
      hcur hstid hs
    obtain ⟨hinv3, hkk3⟩ := daMarkAndEmit_origin fromIds ctx st2 s2 hinv2 hlab
    rw [hs1]
    exact ⟨hinv3, keepsKeys_trans hkk2 hkk3⟩

/-- The downstream loop preserves the origin invariant. -/
theorem daFollowers_origin (fromIds : List Nat) (ctx : DepartCtx) (m : RaptorMarkedStop)
    (curSeg : RoundSegment) (st : GtfsStopTimeStruct)
    (hcur : CurSegOK fromIds m.ID curSeg) (hstid : st.UniqueStopID = m.ID) :
    ∀ (l : List Nat) (s s1 : SearchState), daFollowers ctx m curSeg st l s = Except.ok s1 →
      OriginInv fromIds s → OriginInv fromIds s1 ∧ keepsKeys s.labels s1.labels := by
  intro l
  induction l with
  | nil =>
    intro s s1 h hs
    simp only [daFollowers] at h
    cases h
    exact ⟨hs, keepsKeys_refl _⟩
  | cons i rest ih =>
    intro s s1 h hs
    simp only [daFollowers] at h
    split at h
    · cases h
    · rename_i st2 heq
      split at h
      · cases h
      · rename_i s2 b hf
        obtain ⟨hinv2, hkk2⟩ := daFollower_origin fromIds ctx m curSeg st st2 s s2 b hf
          hcur hstid hs
        split at h
        · cases h
          exact ⟨hinv2, hkk2⟩
        · obtain ⟨hinv3, hkk3⟩ := ih _ _ h hinv2
          exact ⟨hinv3, keepsKeys_trans hkk2 hkk3⟩

/-- One candidate boarding preserves the origin invariant. -/
theorem daBoarding_origin (fromIds : List Nat) (ctx : DepartCtx) (m : RaptorMarkedStop)
    (curSeg : RoundSegment) (s : SearchState) (stIdx : Nat) (s1 : SearchState)
    (h : daBoarding ctx m curSeg s stIdx = Except.ok s1)
    (hcur : CurSegOK fromIds m.ID curSeg)
    (hsti : ∀ st, listGet ctx.stopTimes stIdx = Except.ok st → st.UniqueStopID = m.ID)
    (hs : OriginInv fromIds s) :
    OriginInv fromIds s1 ∧ keepsKeys s.labels s1.labels := by
  simp only [daBoarding] at h
  split at h
  · cases h
  · rename_i st heq
    have hstid : st.UniqueStopID = m.ID := hsti st heq
    split at h
    · cases h
      exact ⟨hs, keepsKeys_refl _⟩
    · split at h
      · cases h
      · rename_i firstIdx hfst
        split at h
        · cases h
        · rename_i firstSt hlg2
          split at h
          · cases h
          · rename_i subIt hsub
            have hs2 : OriginInv fromIds
                { s with tripsScanned := alPut s.tripsScanned st.UniqueTripID st.StopSequence } :=
              hs
            exact daFollowers_origin fromIds ctx m curSeg st hcur hstid subIt.iterList
              { s with tripsScanned := alPut s.tripsScanned st.UniqueTripID st.StopSequence }
              s1 h hs2

/-- The boarding loop preserves the origin invariant. -/
theorem daStopTimesLoop_origin (fromIds : List Nat) (ctx : DepartCtx) (m : RaptorMarkedStop)
    (curSeg : RoundSegment) (hcur : CurSegOK fromIds m.ID curSeg) :
    ∀ (l : List Nat) (s s1 : SearchState),
      daStopTimesLoop ctx m curSeg l s = Except.ok s1 →
      (∀ i ∈ l, ∀ st, listGet ctx.stopTimes i = Except.ok st → st.UniqueStopID = m.ID) →
      OriginInv fromIds s → OriginInv fromIds s1 ∧ keepsKeys s.labels s1.labels := by
  intro l
  induction l with
  | nil =>
    intro s s1 h hl hs
    simp only [daStopTimesLoop] at h
    cases h
    exact ⟨hs, keepsKeys_refl _⟩
  | cons i rest ih =>
    intro s s1 h hl hs
    simp only [daStopTimesLoop] at h
    cases hb : daBoarding ctx m curSeg s i with
    | error e => rw [hb] at h; cases h
    | ok sb =>
      rw [hb] at h
      obtain ⟨hinv2, hkk2⟩ := daBoarding_origin fromIds ctx m curSeg s i sb hb hcur
        (hl i (List.mem_cons_self _ _)) hs
      obtain ⟨hinv3, hkk3⟩ := ih _ _ h (fun i2 hi2 => hl i2 (List.mem_cons_of_mem _ hi2)) hinv2
      exact ⟨hinv3, keepsKeys_trans hkk2 hkk3⟩

/-- One marked stop preserves the origin invariant, given an honest by-stop
index and a label for the marked stop. -/
theorem daMarkedStop_origin (fromIds : List Nat) (ctx : DepartCtx) (s : SearchState)
    (m : RaptorMarkedStop) (s1 : SearchState) (h : daMarkedStop ctx s m = Except.ok s1)
    (hbsh : ByStopHonest ctx.stopTimes ctx.stopTimesByStop)
    (hmlab : (alGet s.labels m.ID).isSome = true) (hs : OriginInv fromIds s) :
    OriginInv fromIds s1 ∧ keepsKeys s.labels s1.labels := by
  simp only [daMarkedStop] at h
  cases hget : alGet s.labels m.ID with
  | none =>
    rw [hget] at hmlab
    cases hmlab
  | some seg =>
    have hcur : CurSegOK fromIds m.ID (alGetD s.labels m.ID zeroRoundSegment) := by
      unfold alGetD
      rw [hget]
      exact ⟨(hs.1 m.ID seg hget).1, (hs.1 m.ID seg hget).2⟩
    have hidx : ∀ i ∈ (NewSliceIterator (alGetD ctx.stopTimesByStop m.ID emptyGoSlice)
        false).iterList, ∀ st, listGet ctx.stopTimes i = Except.ok st →
        st.UniqueStopID = m.ID := by
      intro i hi st hst
      have hi2 : i ∈ (alGetD ctx.stopTimesByStop m.ID emptyGoSlice).data := hi
      unfold alGetD at hi2
      cases hbs : alGet ctx.stopTimesByStop m.ID with
      | none =>
        rw [hbs] at hi2
        simp [emptyGoSlice] at hi2
      | some gs =>
        rw [hbs] at hi2
        exact hbsh m.ID gs hbs i hi2 st (listGet_ok ctx.stopTimes i st hst)
    exact daStopTimesLoop_origin fromIds ctx m _ hcur _ _ _ h hidx hs

/-- The marked-stop loop preserves the origin invariant. -/
theorem daMarkedLoop_origin (fromIds : List Nat) (ctx : DepartCtx)
    (hbsh : ByStopHonest ctx.stopTimes ctx.stopTimesByStop) :
    ∀ (l : List RaptorMarkedStop) (s s1 : SearchState), daMarkedLoop ctx l s = Except.ok s1 →
      (∀ m ∈ l, (alGet s.labels m.ID).isSome = true) →
      OriginInv fromIds s → OriginInv fromIds s1 ∧ keepsKeys s.labels s1.labels := by
  intro l
  induction l with
  | nil =>
    intro s s1 h hl hs
    simp only [daMarkedLoop] at h
    cases h
    exact ⟨hs, keepsKeys_refl _⟩
  | cons m rest ih =>
    intro s s1 h hl hs
    simp only [daMarkedLoop] at h
    cases hm : daMarkedStop ctx s m with
    | error e => rw [hm] at h; cases h
    | ok sm =>
      rw [hm] at h
      obtain ⟨hinv2, hkk2⟩ := daMarkedStop_origin fromIds ctx s m sm hm hbsh
        (hl m (List.mem_cons_self _ _)) hs
      obtain ⟨hinv3, hkk3⟩ := ih _ _ h
        (fun m2 hm2 => hkk2 m2.ID (hl m2 (List.mem_cons_of_mem _ hm2))) hinv2
      exact ⟨hinv3, keepsKeys_trans hkk2 hkk3⟩

/-- The round loop preserves the origin invariant. -/
theorem daRounds_origin (fromIds : List Nat) (ctx : DepartCtx)
    (hbsh : ByStopHonest ctx.stopTimes ctx.stopTimesByStop) :
    ∀ (n : Nat) (marked : List (Nat × RaptorMarkedStop)) (s s1 : SearchState),
      daRounds ctx n marked s = Except.ok s1 →
      (∀ p ∈ marked, (alGet s.labels p.2.ID).isSome = true) →
      OriginInv fromIds s → OriginInv fromIds s1 := by
  intro n
  induction n with
  | zero =>
    intro marked s s1 h hmk hs
    simp only [daRounds] at h
    cases h
    exact hs
  | succ k ih =>
    intro marked s s1 h hmk hs
    simp only [daRounds] at h
    cases hm : daMarkedLoop ctx (marked.map Prod.snd) { s with markedNext := [] } with
    | error e => rw [hm] at h; cases h
    | ok sm =>
      rw [hm] at h
      have hs0 : OriginInv fromIds { s with markedNext := [] } := by
        refine ⟨hs.1, ?_, hs.2.2⟩
        intro p hp
        cases hp
      have hml : ∀ m ∈ marked.map Prod.snd,
          (alGet ({ s with markedNext := ([] : List (Nat × RaptorMarkedStop)) }).labels
            m.ID).isSome = true := by
        intro m hm2
        rcases List.mem_map.mp hm2 with ⟨p, hp, rfl⟩
        exact hmk p hp
      obtain ⟨hinv2, hkk2⟩ := daMarkedLoop_origin fromIds ctx hbsh _ _ _ hm hml hs0
      refine ih _ _ _ h ?_ hinv2
      intro p hp
      exact hinv2.2.1 p hp

/-- The forward search body, run with the honestly built by-stop index, only
returns journeys that start at an origin stop. -/
theorem departMain_origin (fromStops : List GtfsStopStruct)
    (transfers : List GtfsTransferStruct) (stopTimes : List GtfsStopTimeStruct)
    (timeRef : Int) (maxT : Nat) (hop : Bool) (toIds : List (Nat × Nat))
    (tBy tsBy : List (Nat × GoSlice)) (js : List Journey)
    (h : departMain fromStops transfers stopTimes timeRef maxT hop toIds tBy
      (buildStopTimesByStop stopTimes) tsBy = Except.ok js) :
    ∀ j ∈ js, j.FromUniqueStopID ∈ fromStops.map GtfsStopStruct.UniqueID := by
  simp only [departMain] at h
  cases hr : daRounds
      ⟨stopTimes, transfers, toIds, tBy, buildStopTimesByStop stopTimes, tsBy, hop⟩ maxT
      (initMarks fromStops) ⟨initLabels fromStops timeRef, [], [], [], []⟩ with
  | error e => rw [hr] at h; cases h
  | ok sfin =>
    rw [hr] at h
    cases h
    have h0 : OriginInv (fromStops.map GtfsStopStruct.UniqueID)
        ⟨initLabels fromStops timeRef, [], [], [], []⟩ := by
      refine ⟨?_, ?_, ?_⟩
      · intro k seg hget
        obtain ⟨hseg, hk⟩ := initLabels_spec fromStops timeRef k seg hget
        refine ⟨fun _ => hk, ?_⟩
        intro sp hsp
        rw [hseg] at hsp
        cases hsp
      · intro p hp
        cases hp
      · intro j hj
        cases hj
    have hinit : ∀ p ∈ initMarks fromStops,
        (alGet (initLabels fromStops timeRef) p.2.ID).isSome = true :=
      fun p hp => initMarks_labelled fromStops timeRef p hp
    exact (daRounds_origin (fromStops.map GtfsStopStruct.UniqueID)
      ⟨stopTimes, transfers, toIds, tBy, buildStopTimesByStop stopTimes, tsBy, hop⟩
      (buildStopTimesByStop_honest stopTimes) maxT (initMarks fromStops) _ sfin hr hinit h0).2.2

/-- C10 (amended).  When the stop-times-by-stop index is built by
PrepareRaptorInput itself rather than supplied by the caller, every journey
the forward search returns departs from one of the requested origin stops.
With a caller-supplied index no such guarantee holds: the index may list stop
times under a stop they do not belong to, and the search then reports a
journey starting at a non-origin stop. -/
theorem c10_amended_journeys_start_at_origin (inp : SimpleRaptorInput)
    (hnone : inp.StopTimesByUniqueStopId = none) (js : List Journey)
    (h : SimpleRaptorDepartAt inp = Except.ok js) :
    ∀ j ∈ js, j.FromUniqueStopID ∈ inp.FromStops.map GtfsStopStruct.UniqueID := by
  have hbs : (PrepareRaptorInput inp).StopTimesByUniqueStopId =
      buildStopTimesByStop inp.StopTimes := by
    simp only [PrepareRaptorInput]
    rw [hnone]
  unfold SimpleRaptorDepartAt at h
  rw [hbs] at h
  exact departMain_origin _ _ _ _ _ _ _ _ _ js h

/-- Witness for the amended C10 at the clean two-stop ride. -/
theorem c10_amended_journeys_start_at_origin_witness :
    cleanInput.StopTimesByUniqueStopId = none ∧
    SimpleRaptorDepartAt cleanInput = Except.ok [cleanJourney] ∧
    cleanJourney.FromUniqueStopID ∈ cleanInput.FromStops.map GtfsStopStruct.UniqueID :=
  ⟨rfl, by rfl,
    c10_amended_journeys_start_at_origin cleanInput rfl [cleanJourney] (by rfl)
      cleanJourney (List.mem_singleton.mpr rfl)⟩

end GoRaptor
